/-
  Verification of the Hackxios 2025 payment-rail contracts
  (PayFlowCore, SmartEscrow, OracleAggregator, ComplianceEngine)
  against their natural-language specification.

  The Solidity contracts are shallowly embedded: storage mappings become
  association lists keyed by `Nat` (addresses and bytes32 identifiers are
  both modelled as `Nat`), `require` failures become `(some msg, s)` results
  that leave the pre-state unchanged (revert semantics), and outgoing ERC20
  `safeTransfer` calls are recorded in an explicit ledger.
-/
import Mathlib

/-! ## Association-list maps (Solidity storage mappings) -/

/-- Lookup in an association list; `none` models the all-zero default slot. -/
def mapLookup {α β : Type} [DecidableEq α] (k : α) : List (α × β) → Option β
  | [] => none
  | (k', v) :: rest => if k' = k then some v else mapLookup k rest

/-- Write to an association list slot (insert or overwrite). -/
def mapInsert {α β : Type} [DecidableEq α] (k : α) (v : β) :
    List (α × β) → List (α × β)
  | [] => [(k, v)]
  | (k', v') :: rest =>
      if k' = k then (k, v) :: rest else (k', v') :: mapInsert k v rest

namespace PayFlow

/-! ## PayFlowCore (src/unnamed/part_010)

Data model for payments: statuses, compliance tiers, programmable
conditions, and the payment record. -/

/-- `PayFlowCore.PaymentStatus`. -/
inductive PaymentStatus
  | CREATED | PENDING | APPROVED | EXECUTED | FAILED | CANCELLED | DISPUTED
deriving DecidableEq

/-- `PayFlowCore.ComplianceTier`. -/
inductive ComplianceTier
  | NONE | BASIC | STANDARD | ENHANCED | INSTITUTIONAL
deriving DecidableEq

/-- `PayFlowCore.PaymentConditions`. -/
structure PaymentConditions where
  requiredSenderTier : ComplianceTier
  requiredRecipientTier : ComplianceTier
  requireSanctionsCheck : Bool
  validFrom : Nat
  validUntil : Nat
  businessHoursOnly : Bool
  maxSlippage : Nat
  requiredApprovals : Nat
  approvers : List Nat
  useEscrow : Bool
  escrowReleaseTime : Nat
deriving DecidableEq

/-- `PayFlowCore.Payment`.  The `hasApproved` mapping is modelled as the
list of addresses that have approved. -/
structure Payment where
  paymentId : Nat
  sender : Nat
  recipient : Nat
  token : Nat
  amount : Nat
  targetToken : Nat
  targetAmount : Nat
  status : PaymentStatus
  createdAt : Nat
  executedAt : Nat
  conditions : PaymentConditions
  approvalCount : Nat
  hasApproved : List Nat
deriving DecidableEq

/-- One outgoing ERC20 `safeTransfer` from the PayFlowCore contract. -/
structure Transfer where
  token : Nat
  dest : Nat
  amount : Nat
deriving DecidableEq

/-- Execution environment: the chain clock, the contract's ERC20 balances,
and the verdicts the external modules would give.  The last two fields
model the external ComplianceEngine and OracleAggregator; the demo
execution path never consults them (it only reads `blockTimestamp` and
`balanceOf`), which is exactly what several claims are about. -/
structure ExecEnv where
  blockTimestamp : Nat
  balanceOf : Nat → Nat
  complianceGatePassed : Bool
  fxQuoteHalted : Bool

/-- PayFlowCore storage relevant to payment execution, plus the transfer
ledger. -/
structure CoreState where
  payments : List (Nat × Payment)
  protocolFeeBps : Nat
  feeRecipient : Nat
  escrowVault : Nat
  totalPaymentsExecuted : Nat
  totalVolumeProcessed : Nat
  averageSettlementTime : Nat
  transfers : List Transfer
deriving DecidableEq

/-- `PayFlowCore._performFXConversion`: the demo simulates a 1:1
conversion; the source token, minimum target amount and `maxSlippage`
parameters are declared but never read.  `none` models the
`require(balance >= sourceAmount)` revert. -/
def performFXConversion (env : ExecEnv) (_sourceToken targetToken
    sourceAmount _minTargetAmount _maxSlippage : Nat) : Option Nat :=
  if sourceAmount ≤ env.balanceOf targetToken then some sourceAmount else none

/-- `PayFlowCore._allConditionsMet`: time-window and approval checks only;
the compliance-engine check is a comment in the source ("For demo: Always
passes"). -/
def allConditionsMet (env : ExecEnv) (p : Payment) : Bool :=
  let c := p.conditions
  if 0 < c.validFrom ∧ env.blockTimestamp < c.validFrom then false
  else if 0 < c.validUntil ∧ c.validUntil < env.blockTimestamp then false
  else if 0 < c.requiredApprovals ∧ p.approvalCount < c.requiredApprovals then false
  else true

/-- `PayFlowCore._executePayment`, called with the payment found at `pid`.
A `require` failure inside (FX liquidity) reverts the whole call,
returning the untouched pre-state. -/
def executePaymentInternal (env : ExecEnv) (s : CoreState) (pid : Nat)
    (p : Payment) : Option String × CoreState :=
  let gross := p.amount
  let fee := if 0 < s.protocolFeeBps then gross * s.protocolFeeBps / 10000 else 0
  let feeTransfers : List Transfer :=
    if 0 < s.protocolFeeBps then [⟨p.token, s.feeRecipient, fee⟩] else []
  let amountToSend := gross - fee
  let fxResult :=
    if p.targetToken ≠ p.token then
      performFXConversion env p.token p.targetToken amountToSend
        p.targetAmount p.conditions.maxSlippage
    else some amountToSend
  match fxResult with
  | none => (some "Insufficient liquidity", s)
  | some amt =>
      let recipTransfer : Transfer :=
        if p.conditions.useEscrow then ⟨p.targetToken, s.escrowVault, amt⟩
        else ⟨p.targetToken, p.recipient, amt⟩
      let executed := s.totalPaymentsExecuted + 1
      let settlementTime := env.blockTimestamp - p.createdAt
      let p' := { p with status := PaymentStatus.EXECUTED,
                         executedAt := env.blockTimestamp }
      (none,
        { s with
            payments := mapInsert pid p' s.payments
            transfers := s.transfers ++ feeTransfers ++ [recipTransfer]
            totalPaymentsExecuted := executed
            totalVolumeProcessed := s.totalVolumeProcessed + p.amount
            averageSettlementTime :=
              (s.averageSettlementTime * (executed - 1) + settlementTime) / executed })

/-- `PayFlowCore.executePayment`: the external entry point with its three
`require` guards (payment found, status `PENDING`/`APPROVED`, all
conditions met). -/
def executePayment (env : ExecEnv) (s : CoreState) (pid : Nat) :
    Option String × CoreState :=
  match mapLookup pid s.payments with
  | none => (some "Payment not found", s)
  | some p =>
      if p.status = PaymentStatus.PENDING ∨ p.status = PaymentStatus.APPROVED then
        if allConditionsMet env p then executePaymentInternal env s pid p
        else (some "Conditions not met", s)
      else (some "Cannot execute", s)

/-- Modelled from the spec (refinement comparison for the execution
conditions): "time window open, approval threshold met, compliance gate
passed (invoked here, not at creation)".  The compliance verdict is read
from the environment; the implementation's `_allConditionsMet` is to be
compared against this. -/
def specExecConditions (env : ExecEnv) (p : Payment) : Bool :=
  let c := p.conditions
  (decide (¬ (0 < c.validFrom ∧ env.blockTimestamp < c.validFrom))) &&
  (decide (¬ (0 < c.validUntil ∧ c.validUntil < env.blockTimestamp))) &&
  (decide (¬ (0 < c.requiredApprovals ∧ p.approvalCount < c.requiredApprovals))) &&
  env.complianceGatePassed

end PayFlow

namespace Escrow

/-! ## SmartEscrow (src/unnamed/part_010)

Escrow state machine with the outgoing-transfer ledger.  Ledger entries
carrying `eid = some k` are disbursements of escrow `k`'s locked principal;
the creation-time protocol fee is tagged `none` (it is not escrowed funds:
the stored `escrow.amount` is net of the fee). -/

/-- `SmartEscrow.EscrowStatus`. -/
inductive EscrowStatus
  | ACTIVE | RELEASED | REFUNDED | DISPUTED
deriving DecidableEq

/-- `SmartEscrow.ReleaseCondition`. -/
inductive ReleaseCondition
  | TIME_BASED | APPROVAL | ORACLE | MULTI_SIG
deriving DecidableEq

/-- `SmartEscrow.Escrow`.  The `hasSigned` mapping and the `description`
string are omitted: no function in the contract ever writes `hasSigned`
or branches on `description`. -/
structure Esc where
  escrowId : Nat
  paymentId : Nat
  depositor : Nat
  beneficiary : Nat
  arbiter : Nat
  token : Nat
  amount : Nat
  fee : Nat
  status : EscrowStatus
  conditionType : ReleaseCondition
  releaseTime : Nat
  disputeDeadline : Nat
  depositorApproved : Bool
  beneficiaryApproved : Bool
  requiredSignatures : Nat
  signatureCount : Nat
  oracleConditionId : Nat
  oracleConditionMet : Bool
  createdAt : Nat
deriving DecidableEq

/-- One outgoing ERC20 `safeTransfer` from the SmartEscrow contract. -/
structure Payout where
  eid : Option Nat
  token : Nat
  dest : Nat
  amount : Nat
deriving DecidableEq

/-- SmartEscrow storage.  `arbiters` and `operators` are the holders of
`ARBITER_ROLE` and `OPERATOR_ROLE`. -/
structure EscrowState where
  escrows : List (Nat × Esc)
  payouts : List Payout
  escrowFeeBps : Nat
  feeRecipient : Nat
  totalEscrowsCreated : Nat
  totalValueLocked : Nat
  totalReleased : Nat
  arbiters : List Nat
  operators : List Nat
deriving DecidableEq

/-- `SmartEscrow._createEscrow`.  The source derives `escrowId` from a
keccak hash whose preimage includes the strictly increasing
`totalEscrowsCreated` counter, making ids unique; the model uses the
counter itself as the fresh id. -/
def createEscrowInternal (s : EscrowState) (now paymentId depositor
    beneficiary token amount : Nat) (conditionType : ReleaseCondition)
    (releaseTime disputeWindow : Nat) : Option String × EscrowState :=
  let escrowId := s.totalEscrowsCreated
  let fee := amount * s.escrowFeeBps / 10000
  let e : Esc :=
    { escrowId := escrowId
      paymentId := paymentId
      depositor := depositor
      beneficiary := beneficiary
      arbiter := depositor
      token := token
      amount := amount - fee
      fee := fee
      status := EscrowStatus.ACTIVE
      conditionType := conditionType
      releaseTime := releaseTime
      disputeDeadline := now + disputeWindow
      depositorApproved := false
      beneficiaryApproved := false
      requiredSignatures := 0
      signatureCount := 0
      oracleConditionId := 0
      oracleConditionMet := false
      createdAt := now }
  let feePayouts : List Payout :=
    if 0 < fee then [⟨none, token, s.feeRecipient, fee⟩] else []
  (none,
    { s with
        escrows := mapInsert escrowId e s.escrows
        payouts := s.payouts ++ feePayouts
        totalEscrowsCreated := s.totalEscrowsCreated + 1
        totalValueLocked := s.totalValueLocked + (amount - fee) })

/-- `SmartEscrow.createTimeBasedEscrow` (caller is the depositor and, in
`_createEscrow`, the default arbiter). -/
def createTimeBasedEscrow (s : EscrowState) (caller now paymentId
    beneficiary token amount releaseTime disputeWindow : Nat) :
    Option String × EscrowState :=
  if beneficiary = 0 then (some "Invalid beneficiary", s)
  else if amount = 0 then (some "Amount must be positive", s)
  else if releaseTime ≤ now then (some "Release time must be future", s)
  else createEscrowInternal s now paymentId caller beneficiary token amount
        ReleaseCondition.TIME_BASED releaseTime disputeWindow

/-- `SmartEscrow.createApprovalEscrow`. -/
def createApprovalEscrow (s : EscrowState) (caller now paymentId
    beneficiary token amount disputeDeadline : Nat) :
    Option String × EscrowState :=
  if beneficiary = 0 then (some "Invalid beneficiary", s)
  else if amount = 0 then (some "Amount must be positive", s)
  else createEscrowInternal s now paymentId caller beneficiary token amount
        ReleaseCondition.APPROVAL 0 disputeDeadline

/-- `SmartEscrow._releaseEscrow`, called with the escrow found at `eid`. -/
def releaseEscrowInternal (s : EscrowState) (eid : Nat) (e : Esc) :
    Option String × EscrowState :=
  let e' := { e with status := EscrowStatus.RELEASED }
  (none,
    { s with
        escrows := mapInsert eid e' s.escrows
        payouts := s.payouts ++ [⟨some eid, e.token, e.beneficiary, e.amount⟩]
        totalValueLocked := s.totalValueLocked - e.amount
        totalReleased := s.totalReleased + e.amount })

/-- `SmartEscrow._canRelease`. -/
def canRelease (now : Nat) (e : Esc) : Bool :=
  match e.conditionType with
  | ReleaseCondition.TIME_BASED => e.releaseTime ≤ now
  | ReleaseCondition.APPROVAL => e.depositorApproved
  | ReleaseCondition.ORACLE => e.oracleConditionMet
  | ReleaseCondition.MULTI_SIG => e.requiredSignatures ≤ e.signatureCount

/-- `SmartEscrow.releaseEscrow`. -/
def releaseEscrow (s : EscrowState) (now eid : Nat) :
    Option String × EscrowState :=
  match mapLookup eid s.escrows with
  | none => (some "Escrow not found", s)
  | some e =>
      if e.status = EscrowStatus.ACTIVE then
        if canRelease now e then releaseEscrowInternal s eid e
        else (some "Conditions not met", s)
      else (some "Not active", s)

/-- `SmartEscrow.approveRelease`. -/
def approveRelease (s : EscrowState) (caller _now eid : Nat) :
    Option String × EscrowState :=
  match mapLookup eid s.escrows with
  | none => (some "Escrow not found", s)
  | some e =>
      if e.status = EscrowStatus.ACTIVE then
        if caller = e.depositor then
          if e.depositorApproved then (some "Already approved", s)
          else
            let e' := { e with depositorApproved := true }
            let s' := { s with escrows := mapInsert eid e' s.escrows }
            if e'.depositorApproved ∧ e'.conditionType = ReleaseCondition.APPROVAL
            then releaseEscrowInternal s' eid e'
            else (none, s')
        else if caller = e.beneficiary then
          if e.beneficiaryApproved then (some "Already approved", s)
          else
            let e' := { e with beneficiaryApproved := true }
            let s' := { s with escrows := mapInsert eid e' s.escrows }
            if e'.depositorApproved ∧ e'.conditionType = ReleaseCondition.APPROVAL
            then releaseEscrowInternal s' eid e'
            else (none, s')
        else (some "Not a party to this escrow", s)
      else (some "Not active", s)

/-- `SmartEscrow.raiseDispute` (the `reason` string is only emitted). -/
def raiseDispute (s : EscrowState) (caller now eid : Nat) :
    Option String × EscrowState :=
  match mapLookup eid s.escrows with
  | none => (some "Escrow not found", s)
  | some e =>
      if e.status = EscrowStatus.ACTIVE then
        if caller = e.depositor ∨ caller = e.beneficiary then
          if now ≤ e.disputeDeadline then
            let e' := { e with status := EscrowStatus.DISPUTED }
            (none, { s with escrows := mapInsert eid e' s.escrows })
          else (some "Dispute window closed", s)
        else (some "Not a party", s)
      else (some "Not active", s)

/-- `SmartEscrow.resolveDispute` (arbiter only). -/
def resolveDispute (s : EscrowState) (caller eid recipient amount : Nat) :
    Option String × EscrowState :=
  if caller ∈ s.arbiters then
    match mapLookup eid s.escrows with
    | none => (some "Escrow not found", s)
    | some e =>
        if e.status = EscrowStatus.DISPUTED then
          if recipient = e.depositor ∨ recipient = e.beneficiary then
            if amount ≤ e.amount then
              let firstPart : List Payout :=
                if 0 < amount then [⟨some eid, e.token, recipient, amount⟩] else []
              let remainder := e.amount - amount
              let other := if recipient = e.beneficiary then e.depositor
                           else e.beneficiary
              let secondPart : List Payout :=
                if 0 < remainder then [⟨some eid, e.token, other, remainder⟩] else []
              let e' := { e with status := EscrowStatus.RELEASED }
              (none,
                { s with
                    escrows := mapInsert eid e' s.escrows
                    payouts := s.payouts ++ firstPart ++ secondPart
                    totalValueLocked := s.totalValueLocked - e.amount })
            else (some "Amount too high", s)
          else (some "Invalid recipient", s)
        else (some "Not disputed", s)
  else (some "AccessControl", s)

/-- `SmartEscrow.requestRefund` (depositor only; for approval escrows the
beneficiary must have agreed). -/
def requestRefund (s : EscrowState) (caller _now eid : Nat) :
    Option String × EscrowState :=
  match mapLookup eid s.escrows with
  | none => (some "Escrow not found", s)
  | some e =>
      if caller = e.depositor then
        if e.status = EscrowStatus.ACTIVE then
          if e.conditionType = ReleaseCondition.APPROVAL ∧ ¬ e.beneficiaryApproved
          then (some "Beneficiary must agree to refund", s)
          else
            let e' := { e with status := EscrowStatus.REFUNDED }
            (none,
              { s with
                  escrows := mapInsert eid e' s.escrows
                  payouts := s.payouts ++ [⟨some eid, e.token, e.depositor, e.amount⟩]
                  totalValueLocked := s.totalValueLocked - e.amount })
        else (some "Not active", s)
      else (some "Not depositor", s)

/-- `SmartEscrow.setOracleConditionMet` (operator only).  The source has
no existence check; writing to an absent slot only flips a field of the
all-zero default record, which the association-list model keeps absent. -/
def setOracleConditionMet (s : EscrowState) (caller eid : Nat) :
    Option String × EscrowState :=
  if caller ∈ s.operators then
    match mapLookup eid s.escrows with
    | none => (some "Not oracle escrow", s)
    | some e =>
        if e.conditionType = ReleaseCondition.ORACLE then
          let e' := { e with oracleConditionMet := true }
          (none, { s with escrows := mapInsert eid e' s.escrows })
        else (some "Not oracle escrow", s)
  else (some "AccessControl", s)

/-- One externally callable SmartEscrow operation together with its
caller and arguments. -/
inductive EscrowOp
  | createTimeBased (caller paymentId beneficiary token amount releaseTime
      disputeWindow : Nat)
  | createApproval (caller paymentId beneficiary token amount
      disputeDeadline : Nat)
  | approve (caller eid : Nat)
  | release (eid : Nat)
  | dispute (caller eid : Nat)
  | resolve (caller eid recipient amount : Nat)
  | refund (caller eid : Nat)
  | setOracleMet (caller eid : Nat)
deriving DecidableEq

/-- Post-state of one operation (a reverted call leaves the state as it
was). -/
def stepEscrow (s : EscrowState) (now : Nat) : EscrowOp → EscrowState
  | EscrowOp.createTimeBased caller pid ben tok amt rel dw =>
      (createTimeBasedEscrow s caller now pid ben tok amt rel dw).2
  | EscrowOp.createApproval caller pid ben tok amt dd =>
      (createApprovalEscrow s caller now pid ben tok amt dd).2
  | EscrowOp.approve caller eid => (approveRelease s caller now eid).2
  | EscrowOp.release eid => (releaseEscrow s now eid).2
  | EscrowOp.dispute caller eid => (raiseDispute s caller now eid).2
  | EscrowOp.resolve caller eid recip amt => (resolveDispute s caller eid recip amt).2
  | EscrowOp.refund caller eid => (requestRefund s caller now eid).2
  | EscrowOp.setOracleMet caller eid => (setOracleConditionMet s caller eid).2

/-- Run a sequence of operations, each with its own timestamp. -/
def runEscrow (s : EscrowState) : List (Nat × EscrowOp) → EscrowState
  | [] => s
  | (now, op) :: rest => runEscrow (stepEscrow s now op) rest

/-- Total principal disbursed from escrow `k` according to the ledger. -/
def outflowFor (k : Nat) (l : List Payout) : Nat :=
  (l.map (fun t => if t.eid = some k then t.amount else 0)).sum

/-- The funds-move-exactly-once invariant: every stored escrow has paid
out its principal exactly when it is terminal (`RELEASED`/`REFUNDED`),
ids are bounded by the creation counter (freshness), and ids without a
stored escrow have no principal outflow. -/
def fundsOnce (s : EscrowState) : Prop :=
  (∀ k e, mapLookup k s.escrows = some e →
    k < s.totalEscrowsCreated ∧
    outflowFor k s.payouts =
      (if e.status = EscrowStatus.RELEASED ∨ e.status = EscrowStatus.REFUNDED
       then e.amount else 0)) ∧
  (∀ k, mapLookup k s.escrows = none → outflowFor k s.payouts = 0)

end Escrow

namespace Oracle

/-! ## OracleAggregator (src/unnamed/part_010)

Multi-source FX aggregation with per-pair circuit breakers. -/

/-- `OracleAggregator.PriceData`.  A missing mapping slot is the all-zero
record, in particular `isActive = false`, so `mapLookup = none` is
skipped exactly like the default slot. -/
structure PriceData where
  rate : Nat
  timestamp : Nat
  confidence : Nat
  isActive : Bool
deriving DecidableEq

/-- `OracleAggregator.OracleSource`. -/
structure OracleSource where
  oracle : Nat
  name : String
  weight : Nat
  isActive : Bool
  lastUpdate : Nat
  totalUpdates : Nat
deriving DecidableEq

/-- `OracleAggregator.CurrencyPair`. -/
structure CurrencyPair where
  base : String
  quote : String
  pairId : Nat
  isActive : Bool
  currentRate : Nat
  lastUpdate : Nat
  rateHistory : List Nat
  timestamps : List Nat
  twapPeriod : Nat
  maxDeviation : Nat
  circuitBreakerTripped : Bool
deriving DecidableEq

/-- OracleAggregator storage.  `oracleAdmins` and `priceUpdaters` hold
the `ORACLE_ADMIN` and `PRICE_UPDATER` roles.  `oraclePrices` is keyed by
`(pairId, oracle)`. -/
structure OracleState where
  pairs : List (Nat × CurrencyPair)
  oraclePrices : List ((Nat × Nat) × PriceData)
  oracleSources : List (Nat × OracleSource)
  activeOracles : List Nat
  oracleAdmins : List Nat
  priceUpdaters : List Nat
  stalenessThreshold : Nat
  minOracleCount : Nat
  totalPriceUpdates : Nat
  totalQueries : Nat
  circuitBreakerTriggers : Nat
deriving DecidableEq

/-- `OracleAggregator._calculateDeviation` (basis points relative to the
old rate). -/
def calculateDeviation (oldRate newRate : Nat) : Nat :=
  if oldRate = 0 then 0
  else (if newRate < oldRate then oldRate - newRate else newRate - oldRate)
        * 10000 / oldRate

/-- Loop body of `OracleAggregator._calculateAggregatedRate`: accumulate
`(weightedSum, totalWeight, validOracles)` over one entry of
`activeOracles`, skipping inactive sources, inactive reports and stale
reports. -/
def aggregateStep (s : OracleState) (now pairId : Nat)
    (acc : Nat × Nat × Nat) (oracle : Nat) : Nat × Nat × Nat :=
  match mapLookup oracle s.oracleSources with
  | none => acc
  | some src =>
      if ¬ src.isActive then acc
      else
        match mapLookup (pairId, oracle) s.oraclePrices with
        | none => acc
        | some price =>
            if ¬ price.isActive then acc
            else if s.stalenessThreshold < now - price.timestamp then acc
            else (acc.1 + price.rate * src.weight, acc.2.1 + src.weight,
                  acc.2.2 + 1)

/-- The `(weightedSum, totalWeight, validOracles)` accumulator after the
full `activeOracles` loop. -/
def aggregateFold (s : OracleState) (now pairId : Nat) : Nat × Nat × Nat :=
  s.activeOracles.foldl (aggregateStep s now pairId) (0, 0, 0)

/-- Number of surviving (active, fresh) reports counted by the loop. -/
def freshSourceCount (s : OracleState) (now pairId : Nat) : Nat :=
  (aggregateFold s now pairId).2.2

/-- `OracleAggregator._calculateAggregatedRate`: weighted mean over
survivors, falling back to the pair's last-known `currentRate` when the
total weight is zero or fewer than `minOracleCount` survivors remain. -/
def calculateAggregatedRate (s : OracleState) (now pairId : Nat) : Nat :=
  let acc := aggregateFold s now pairId
  if acc.2.1 = 0 ∨ acc.2.2 < s.minOracleCount then
    match mapLookup pairId s.pairs with
    | some p => p.currentRate
    | none => 0
  else acc.1 / acc.2.1

/-- Length of the leading run of timestamps older than the cutoff (the
`while` scan in `_trimHistory`). -/
def countLeadingOlder (cutoff : Nat) : List Nat → Nat
  | [] => 0
  | t :: rest => if t < cutoff then countLeadingOlder cutoff rest + 1 else 0

/-- `OracleAggregator._trimHistory`: drop the aged-out leading entries of
both arrays, but only once the history exceeds 100 entries (the source
shifts the arrays left by `i` and pops `i` tail slots, which is exactly
`List.drop i`). -/
def trimHistory (now : Nat) (p : CurrencyPair) : CurrencyPair :=
  let cutoff := now - p.twapPeriod
  let i := countLeadingOlder cutoff p.timestamps
  if 0 < i ∧ 100 < p.rateHistory.length then
    { p with rateHistory := p.rateHistory.drop i,
             timestamps := p.timestamps.drop i }
  else p

/-- The all-zero default `OracleSource` slot (written through when an
unregistered updater submits a price, as the source does). -/
def defaultSource : OracleSource :=
  { oracle := 0, name := "", weight := 0, isActive := false,
    lastUpdate := 0, totalUpdates := 0 }

/-- `OracleAggregator.updatePrice`.  On an excessive deviation the source
trips the breaker, bumps the trigger counter and RETURNS (it does not
revert), leaving every other storage slot untouched. -/
def updatePrice (s : OracleState) (caller now pairId rate confidence : Nat) :
    Option String × OracleState :=
  if caller ∈ s.priceUpdaters then
    match mapLookup pairId s.pairs with
    | none => (some "Pair not active", s)
    | some pair =>
        if ¬ pair.isActive then (some "Pair not active", s)
        else if rate = 0 then (some "Invalid rate", s)
        else if 100 < confidence then (some "Invalid confidence", s)
        else if 0 < pair.currentRate ∧
                pair.maxDeviation < calculateDeviation pair.currentRate rate then
          let pair' := { pair with circuitBreakerTripped := true }
          (none, { s with pairs := mapInsert pairId pair' s.pairs,
                          circuitBreakerTriggers := s.circuitBreakerTriggers + 1 })
        else
          let price : PriceData :=
            { rate := rate, timestamp := now, confidence := confidence,
              isActive := true }
          let src := (mapLookup caller s.oracleSources).getD defaultSource
          let src' := { src with lastUpdate := now,
                                 totalUpdates := src.totalUpdates + 1 }
          let s1 := { s with
            oraclePrices := mapInsert (pairId, caller) price s.oraclePrices,
            oracleSources := mapInsert caller src' s.oracleSources }
          let aggregated := calculateAggregatedRate s1 now pairId
          let pair1 := { pair with
            currentRate := aggregated
            lastUpdate := now
            rateHistory := pair.rateHistory ++ [aggregated]
            timestamps := pair.timestamps ++ [now] }
          let pair2 := trimHistory now pair1
          (none, { s1 with pairs := mapInsert pairId pair2 s1.pairs,
                           totalPriceUpdates := s1.totalPriceUpdates + 1 })
  else (some "AccessControl", s)

/-- Loop body of `OracleAggregator.batchUpdatePrices`: an entry whose
pair is active and whose rate is positive overwrites the caller's report
and writes the submitted rate straight into `currentRate`; every other
entry is skipped. -/
def batchStep (caller now : Nat) (s : OracleState) (e : Nat × Nat × Nat) :
    OracleState :=
  match mapLookup e.1 s.pairs with
  | none => s
  | some pair =>
      if pair.isActive ∧ 0 < e.2.1 then
        let price : PriceData :=
          { rate := e.2.1, timestamp := now, confidence := e.2.2,
            isActive := true }
        let pair' := { pair with currentRate := e.2.1, lastUpdate := now }
        { s with oraclePrices := mapInsert (e.1, caller) price s.oraclePrices,
                 pairs := mapInsert e.1 pair' s.pairs }
      else s

/-- `OracleAggregator.batchUpdatePrices`.  The index loop over the three
equal-length arrays is modelled as a fold over the zipped entries. -/
def batchUpdatePrices (s : OracleState) (caller now : Nat)
    (pairIds rates confidences : List Nat) : Option String × OracleState :=
  if caller ∈ s.priceUpdaters then
    if pairIds.length ≠ rates.length then (some "Length mismatch", s)
    else if pairIds.length ≠ confidences.length then (some "Length mismatch", s)
    else
      let s' := (pairIds.zip (rates.zip confidences)).foldl
        (batchStep caller now) s
      (none, { s' with totalPriceUpdates := s'.totalPriceUpdates + pairIds.length })
  else (some "AccessControl", s)

/-- `OracleAggregator.resetCircuitBreaker` (oracle admin only).  Writing
`false` into an absent slot leaves the all-zero default record all-zero,
which the association-list model keeps absent. -/
def resetCircuitBreaker (s : OracleState) (caller pairId : Nat) :
    Option String × OracleState :=
  if caller ∈ s.oracleAdmins then
    match mapLookup pairId s.pairs with
    | none => (none, s)
    | some pair =>
        let pair' := { pair with circuitBreakerTripped := false }
        (none, { s with pairs := mapInsert pairId pair' s.pairs })
  else (some "AccessControl", s)

/-- `OracleAggregator.RateResponse`. -/
structure RateResponse where
  spotRate : Nat
  twapRate : Nat
  confidence : Nat
  timestamp : Nat
  isStale : Bool
  circuitBreakerActive : Bool
deriving DecidableEq

/-- Loop body of `OracleAggregator._calculateTWAP`. -/
def twapStep (now cutoff lastIndex : Nat) (p : CurrencyPair)
    (acc : Nat × Nat) (i : Nat) : Nat × Nat :=
  let ts := p.timestamps.getD i 0
  if ts < cutoff then acc
  else
    let timeDelta :=
      if i = lastIndex then now - ts else p.timestamps.getD (i + 1) 0 - ts
    (acc.1 + p.rateHistory.getD i 0 * timeDelta, acc.2 + timeDelta)

/-- `OracleAggregator._calculateTWAP`. -/
def calculateTWAP (now : Nat) (p : CurrencyPair) : Nat :=
  if p.rateHistory.length = 0 then p.currentRate
  else if p.rateHistory.length = 1 then p.rateHistory.getD 0 0
  else
    let cutoff := now - p.twapPeriod
    let acc := (List.range p.rateHistory.length).foldl
      (twapStep now cutoff (p.rateHistory.length - 1) p) (0, 0)
    if acc.2 = 0 then p.currentRate else acc.1 / acc.2

/-- Loop body of `OracleAggregator._calculateConfidence`. -/
def confidenceStep (s : OracleState) (now pairId : Nat)
    (acc : Nat × Nat) (oracle : Nat) : Nat × Nat :=
  match mapLookup (pairId, oracle) s.oraclePrices with
  | none => acc
  | some price =>
      if price.isActive ∧ now - price.timestamp ≤ s.stalenessThreshold then
        (acc.1 + 1, acc.2 + price.confidence)
      else acc

/-- `OracleAggregator._calculateConfidence`. -/
def calculateConfidence (s : OracleState) (now pairId : Nat) : Nat :=
  let acc := s.activeOracles.foldl (confidenceStep s now pairId) (0, 0)
  if acc.1 = 0 then 0 else acc.2 / acc.1

/-- `OracleAggregator.getRate` / `_getRate`: a `view` function.  It is
paired with the unchanged state to make "queries do not modify storage"
expressible as an equation. -/
def getRate (s : OracleState) (now pairId : Nat) :
    RateResponse × OracleState :=
  let pair := (mapLookup pairId s.pairs).getD
    { base := "", quote := "", pairId := 0, isActive := false,
      currentRate := 0, lastUpdate := 0, rateHistory := [], timestamps := [],
      twapPeriod := 0, maxDeviation := 0, circuitBreakerTripped := false }
  ({ spotRate := pair.currentRate
     twapRate := calculateTWAP now pair
     confidence := calculateConfidence s now pairId
     timestamp := pair.lastUpdate
     isStale := s.stalenessThreshold < now - pair.lastUpdate
     circuitBreakerActive := pair.circuitBreakerTripped }, s)

/-- The pair at `pid` exists and its circuit breaker is tripped. -/
def trippedAt (s : OracleState) (pid : Nat) : Prop :=
  ∃ p, mapLookup pid s.pairs = some p ∧ p.circuitBreakerTripped = true

/-- Modelled from the spec (refinement comparison for C4/C5): the spec's
`MIN_VALID_SOURCES` constant. -/
def specMinValidSources : Nat := 3

/-- Modelled from the spec (refinement comparison): the spec's
confidence-weighted consensus `Σ(price_i × confidence_i) / Σ(confidence_i)`
over the surviving reports, each given as `(price, effective confidence)`. -/
def specWeightedPrice (reports : List (Nat × Nat)) : Nat :=
  let num := (reports.map (fun rc => rc.1 * rc.2)).foldr (· + ·) 0
  let den := (reports.map (fun rc => rc.2)).foldr (· + ·) 0
  if den = 0 then 0 else num / den

/-- Modelled from the spec: the staleness discount on a source's reported
confidence — full weight if fresh (within half the staleness window), 80%
past half the window, 50% past the full window. -/
def specStaleDiscount (now window ts conf : Nat) : Nat :=
  if now - ts ≤ window / 2 then conf
  else if now - ts ≤ window then conf * 80 / 100
  else conf * 50 / 100

/-- The `(rate, weight)` contribution of one oracle to the aggregation
loop, or `none` if the loop skips it (inactive source, inactive or stale
report). -/
def survivorFn (s : OracleState) (now pairId oracle : Nat) : Option (Nat × Nat) :=
  match mapLookup oracle s.oracleSources with
  | none => none
  | some src =>
      if ¬ src.isActive then none
      else
        match mapLookup (pairId, oracle) s.oraclePrices with
        | none => none
        | some price =>
            if ¬ price.isActive then none
            else if s.stalenessThreshold < now - price.timestamp then none
            else some (price.rate, src.weight)

/-- The survivors of the aggregation loop, in `activeOracles` order, as
`(rate, weight)` pairs — the data the weighted mean is computed from. -/
def survivors (s : OracleState) (now pairId : Nat) : List (Nat × Nat) :=
  s.activeOracles.filterMap (survivorFn s now pairId)

/-- An entry `(pairId, rate)` is processed (rather than skipped) by the
batch loop exactly when the pair is stored active and the rate is
positive.  `batchStep` never changes a pair's existence or `isActive`,
so this is stable across the whole batch. -/
def qualifies (s : OracleState) (pid rate : Nat) : Bool :=
  match mapLookup pid s.pairs with
  | some pair => pair.isActive && decide (0 < rate)
  | none => false

/-- The `(rate, confidence)` of the last entry for pair `q` that the
batch loop processes, if any (`f` decides which entries are processed). -/
def lastQual (f : Nat → Nat → Bool) (q : Nat) :
    List (Nat × Nat × Nat) → Option (Nat × Nat)
  | [] => none
  | e :: rest =>
      match lastQual f q rest with
      | some v => some v
      | none => if e.1 = q ∧ f e.1 e.2.1 then some e.2 else none

/-- The circuit-breaker flag and TWAP history of the pair at `q` — the
storage a batch update must not touch. -/
def pairFrame (s : OracleState) (q : Nat) : Option (Bool × List Nat × List Nat) :=
  (mapLookup q s.pairs).map
    (fun p => (p.circuitBreakerTripped, p.rateHistory, p.timestamps))

end Oracle

namespace Compliance

/-! ## ComplianceEngine
(src/theblocks/packages/hardhat/contracts/tokens/MockStablecoins.sol) -/

/-- `ComplianceEngine.ComplianceTier`. -/
inductive ComplianceTier
  | NONE | BASIC | STANDARD | ENHANCED | INSTITUTIONAL
deriving DecidableEq

/-- Enum ordinal, for the `<` comparisons on tiers. -/
def ComplianceTier.toNat : ComplianceTier → Nat
  | ComplianceTier.NONE => 0
  | ComplianceTier.BASIC => 1
  | ComplianceTier.STANDARD => 2
  | ComplianceTier.ENHANCED => 3
  | ComplianceTier.INSTITUTIONAL => 4

/-- `ComplianceEngine.EntityProfile`. -/
structure EntityProfile where
  entity : Nat
  tier : ComplianceTier
  isVerified : Bool
  isSanctioned : Bool
  identityHash : Nat
  jurisdiction : String
  isPEP : Bool
  dailyLimit : Nat
  monthlyLimit : Nat
  singleTxLimit : Nat
  dailyVolume : Nat
  monthlyVolume : Nat
  lastDayReset : Nat
  lastMonthReset : Nat
  verifiedAt : Nat
  expiresAt : Nat
  verifiedBy : Nat
  riskScore : Nat
  underReview : Bool
deriving DecidableEq

/-- The all-zero default profile of an address that was never verified. -/
def defaultProfile : EntityProfile :=
  { entity := 0, tier := ComplianceTier.NONE, isVerified := false,
    isSanctioned := false, identityHash := 0, jurisdiction := "",
    isPEP := false, dailyLimit := 0, monthlyLimit := 0, singleTxLimit := 0,
    dailyVolume := 0, monthlyVolume := 0, lastDayReset := 0,
    lastMonthReset := 0, verifiedAt := 0, expiresAt := 0, verifiedBy := 0,
    riskScore := 0, underReview := false }

/-- `ComplianceEngine.TransactionCheck`. -/
structure TransactionCheck where
  passed : Bool
  reason : String
  requiresTravelRule : Bool
  requiresEnhancedDD : Bool
  timestamp : Nat
deriving DecidableEq

/-- ComplianceEngine storage touched by compliance checks. -/
structure ComplianceState where
  profiles : List (Nat × EntityProfile)
  travelRuleThreshold : Nat
  totalChecks : Nat
  totalRejections : Nat
deriving DecidableEq

/-- Read a profile, materialising the default slot for absent keys. -/
def getProfile (s : ComplianceState) (a : Nat) : EntityProfile :=
  (mapLookup a s.profiles).getD defaultProfile

/-- Seconds per day / per the contract's 30-day month. -/
def secondsPerDay : Nat := 86400

def secondsPerMonth : Nat := 2592000

/-- `ComplianceEngine._resetLimitsIfNeeded`: zero the rolling volume
counters when the day / 30-day month has rolled over. -/
def resetLimitsIfNeeded (now : Nat) (p : EntityProfile) : EntityProfile :=
  let currentDay := now / secondsPerDay
  let currentMonth := now / secondsPerMonth
  let p1 := if p.lastDayReset < currentDay then
      { p with dailyVolume := 0, lastDayReset := currentDay } else p
  if p1.lastMonthReset < currentMonth then
    { p1 with monthlyVolume := 0, lastMonthReset := currentMonth } else p1

/-- `ComplianceEngine._reject`: bump the rejection counter and return a
failed check.  The function returns normally, so storage mutations made
before the rejection (the counters, the period reset) persist. -/
def reject (s : ComplianceState) (now : Nat) (reason : String) :
    TransactionCheck × ComplianceState :=
  ({ passed := false, reason := reason, requiresTravelRule := false,
     requiresEnhancedDD := false, timestamp := now },
   { s with totalRejections := s.totalRejections + 1 })

/-- `ComplianceEngine.checkPaymentCompliance`.  The rejection order
matches the source: sanctions, tiers, verification expiry, then — after
the period reset is written back to storage — single-transaction, daily
and monthly limits; only a fully passing check adds the amount to the
rolling volumes. -/
def checkPaymentCompliance (s : ComplianceState) (now _paymentId sender
    recipient amount : Nat) (requireSanctionsCheck : Bool)
    (requiredSenderTier requiredRecipientTier : ComplianceTier) :
    TransactionCheck × ComplianceState :=
  let s := { s with totalChecks := s.totalChecks + 1 }
  let senderProfile := getProfile s sender
  let recipientProfile := getProfile s recipient
  if requireSanctionsCheck ∧ senderProfile.isSanctioned then
    reject s now "Sender is sanctioned"
  else if requireSanctionsCheck ∧ recipientProfile.isSanctioned then
    reject s now "Recipient is sanctioned"
  else if senderProfile.tier.toNat < requiredSenderTier.toNat then
    reject s now "Sender tier insufficient"
  else if recipientProfile.tier.toNat < requiredRecipientTier.toNat then
    reject s now "Recipient tier insufficient"
  else if senderProfile.isVerified ∧ senderProfile.expiresAt < now then
    reject s now "Sender verification expired"
  else
    let sp := resetLimitsIfNeeded now senderProfile
    let s := { s with profiles := mapInsert sender sp s.profiles }
    if sp.singleTxLimit < amount then
      reject s now "Exceeds single transaction limit"
    else if sp.dailyLimit < sp.dailyVolume + amount then
      reject s now "Exceeds daily limit"
    else if sp.monthlyLimit < sp.monthlyVolume + amount then
      reject s now "Exceeds monthly limit"
    else
      let sp' := { sp with dailyVolume := sp.dailyVolume + amount,
                           monthlyVolume := sp.monthlyVolume + amount }
      let s := { s with profiles := mapInsert sender sp' s.profiles }
      -- re-read, as the source reads the live storage references here
      let senderNow := getProfile s sender
      let recipientNow := getProfile s recipient
      ({ passed := true
         reason := "Compliance check passed"
         requiresTravelRule := s.travelRuleThreshold ≤ amount
         requiresEnhancedDD :=
           decide (70 < senderNow.riskScore) || decide (70 < recipientNow.riskScore)
           || senderNow.isPEP || recipientNow.isPEP
         timestamp := now }, s)

/-- The tuple returned by `ComplianceEngine.getEntityProfile`. -/
structure EntityProfileView where
  tier : ComplianceTier
  isVerified : Bool
  sanctioned : Bool
  jurisdiction : String
  riskScore : Nat
  dailyRemaining : Nat
  monthlyRemaining : Nat
deriving DecidableEq

/-- `ComplianceEngine.getEntityProfile` (a `view`): volumes from a past
period count as zero used, and remaining capacity clamps at zero. -/
def getEntityProfile (s : ComplianceState) (now entity : Nat) :
    EntityProfileView :=
  let p := getProfile s entity
  let dailyUsed := if p.lastDayReset = now / secondsPerDay then p.dailyVolume else 0
  let monthlyUsed :=
    if p.lastMonthReset = now / secondsPerMonth then p.monthlyVolume else 0
  { tier := p.tier
    isVerified := p.isVerified
    sanctioned := p.isSanctioned
    jurisdiction := p.jurisdiction
    riskScore := p.riskScore
    dailyRemaining := if dailyUsed < p.dailyLimit then p.dailyLimit - dailyUsed else 0
    monthlyRemaining :=
      if monthlyUsed < p.monthlyLimit then p.monthlyLimit - monthlyUsed else 0 }

end Compliance

namespace PayFlow

/-! ### Concrete fixtures (PayFlowCore) -/

/-- A conditions record with no restrictions set. -/
def noConditions : PaymentConditions :=
  { requiredSenderTier := ComplianceTier.NONE
    requiredRecipientTier := ComplianceTier.NONE
    requireSanctionsCheck := false
    validFrom := 0
    validUntil := 0
    businessHoursOnly := false
    maxSlippage := 0
    requiredApprovals := 0
    approvers := []
    useEscrow := false
    escrowReleaseTime := 0 }

/-- A pending same-token payment of 1000 units of token 5. -/
def samplePayment : Payment :=
  { paymentId := 1, sender := 10, recipient := 11, token := 5, amount := 1000,
    targetToken := 5, targetAmount := 0, status := PaymentStatus.PENDING,
    createdAt := 50, executedAt := 0, conditions := noConditions,
    approvalCount := 0, hasApproved := [] }

/-- PayFlowCore holding `samplePayment`, with the default 0.1% fee. -/
def sampleState : CoreState :=
  { payments := [(1, samplePayment)], protocolFeeBps := 10, feeRecipient := 99,
    escrowVault := 98, totalPaymentsExecuted := 0, totalVolumeProcessed := 0,
    averageSettlementTime := 0, transfers := [] }

/-- A benign environment: ample liquidity, compliance passing, no halt. -/
def sampleEnv : ExecEnv :=
  { blockTimestamp := 100, balanceOf := fun _ => 1000000,
    complianceGatePassed := true, fxQuoteHalted := false }

/-- The same environment with the external compliance engine rejecting. -/
def envGateDown : ExecEnv := { sampleEnv with complianceGatePassed := false }

/-- A cross-currency payment (token 5 → 6) whose expected target amount
of 2000 exceeds anything the 1:1 demo conversion can deliver. -/
def fxPayment : Payment :=
  { samplePayment with paymentId := 2, targetToken := 6, targetAmount := 2000 }

/-- PayFlowCore holding `fxPayment`. -/
def fxState : CoreState := { sampleState with payments := [(2, fxPayment)] }

/-- The environment with the FX pair's circuit breaker halted. -/
def envHalted : ExecEnv := { sampleEnv with fxQuoteHalted := true }

end PayFlow

namespace Escrow

/-! ### Concrete fixtures (SmartEscrow) -/

/-- An escrow that has already been released. -/
def doneEscrow : Esc :=
  { escrowId := 0, paymentId := 3, depositor := 20, beneficiary := 21,
    arbiter := 20, token := 5, amount := 500, fee := 0,
    status := EscrowStatus.RELEASED, conditionType := ReleaseCondition.TIME_BASED,
    releaseTime := 10, disputeDeadline := 100, depositorApproved := false,
    beneficiaryApproved := false, requiredSignatures := 0, signatureCount := 0,
    oracleConditionId := 0, oracleConditionMet := false, createdAt := 1 }

/-- SmartEscrow after `doneEscrow` paid out its principal once. -/
def doneState : EscrowState :=
  { escrows := [(0, doneEscrow)], payouts := [⟨some 0, 5, 21, 500⟩],
    escrowFeeBps := 5, feeRecipient := 99, totalEscrowsCreated := 1,
    totalValueLocked := 0, totalReleased := 500, arbiters := [30],
    operators := [31] }

end Escrow

namespace Oracle

/-! ### Concrete fixtures (OracleAggregator) -/

/-- A currency pair used by the fixtures: active, last-known rate 99. -/
def pair7 : CurrencyPair :=
  { base := "USD", quote := "EUR", pairId := 7, isActive := true,
    currentRate := 99, lastUpdate := 900, rateHistory := [99],
    timestamps := [900], twapPeriod := 900, maxDeviation := 500,
    circuitBreakerTripped := false }

/-- Two active sources with weights 9000 and 1000 and fresh full-confidence
reports of 10 and 20 for pair 7 — exactly 2 surviving sources. -/
def s4 : OracleState :=
  { pairs := [(7, pair7)]
    oraclePrices := [((7, 1), ⟨10, 1000, 100, true⟩), ((7, 2), ⟨20, 1000, 100, true⟩)]
    oracleSources :=
      [(1, ⟨1, "chainlink", 9000, true, 1000, 1⟩),
       (2, ⟨2, "band", 1000, true, 1000, 1⟩)]
    activeOracles := [1, 2]
    oracleAdmins := [40]
    priceUpdaters := [5]
    stalenessThreshold := 3600
    minOracleCount := 2
    totalPriceUpdates := 2
    totalQueries := 0
    circuitBreakerTriggers := 0 }

/-- The same aggregator with no registered sources at all: zero fresh
reports survive any aggregation. -/
def s4z : OracleState :=
  { s4 with oraclePrices := [], oracleSources := [], activeOracles := [] }

/-- Pair 7 with its circuit breaker tripped. -/
def s8 : OracleState :=
  { s4 with pairs := [(7, { pair7 with circuitBreakerTripped := true })] }

/-- State for the deviation counterexample: submitting 200 against a
current rate of 100 is a 100% deviation, far above 500 bps. -/
def s9 : OracleState :=
  { s4 with pairs := [(7, { pair7 with currentRate := 100 })] }

/-- State for the batch-update theorem: pair 7 active, pair 8 inactive. -/
def sBatch : OracleState :=
  { s4 with pairs := [(7, pair7), (8, { pair7 with pairId := 8, isActive := false })] }

end Oracle

namespace Compliance

/-! ### Concrete fixtures (ComplianceEngine) -/

/-- A BASIC-tier verified sender with a fresh day: limits 600/1000/5000,
nothing consumed yet. -/
def aliceProfile : EntityProfile :=
  { defaultProfile with
      entity := 10, tier := ComplianceTier.BASIC, isVerified := true,
      dailyLimit := 1000, monthlyLimit := 5000, singleTxLimit := 600,
      dailyVolume := 0, monthlyVolume := 0, lastDayReset := 11,
      lastMonthReset := 0, expiresAt := 2000000, riskScore := 10 }

/-- ComplianceEngine holding `aliceProfile`. -/
def sComp : ComplianceState :=
  { profiles := [(10, aliceProfile)], travelRuleThreshold := 3000,
    totalChecks := 0, totalRejections := 0 }

/-- The same engine after 500 units of daily volume have been consumed. -/
def sComp2 : ComplianceState :=
  { sComp with profiles :=
      [(10, { aliceProfile with dailyVolume := 500, monthlyVolume := 500 })] }

end Compliance

/-! ## Helper lemmas -/

theorem mapLookup_insert_self {α β : Type} [DecidableEq α] (k : α) (v : β)
    (l : List (α × β)) : mapLookup k (mapInsert k v l) = some v := by
  induction l with
  | nil => simp [mapInsert, mapLookup]
  | cons hd tl ih =>
      obtain ⟨k', v'⟩ := hd
      by_cases h : k' = k
      · simp [mapInsert, mapLookup, h]
      · simp [mapInsert, mapLookup, h, ih]

theorem mapLookup_insert_ne {α β : Type} [DecidableEq α] (k j : α) (v : β)
    (l : List (α × β)) (h : k ≠ j) :
    mapLookup j (mapInsert k v l) = mapLookup j l := by
  induction l with
  | nil => simp [mapInsert, mapLookup, h]
  | cons hd tl ih =>
      obtain ⟨k', v'⟩ := hd
      by_cases hk : k' = k
      · subst hk
        simp [mapInsert, mapLookup, h]
      · simp [mapInsert, mapLookup, hk, ih]

namespace PayFlow

/-! ## Theorems: PayFlowCore -/

/-- C1.  Idempotent execution: a payment in a terminal status (in
particular `EXECUTED`) makes `executePayment` fail with the
"Cannot execute" precondition error and leave the state — including the
transfer ledger — untouched; and after one successful `executePayment`
the payment is `EXECUTED` and a second call on the same id fails the
same way with no state change, so the status is set to `EXECUTED` and
the tokens leave the contract for this payment at most once. -/
theorem executePayment_at_most_once
    (env env' : ExecEnv) (s s' : CoreState) (pid : Nat) :
    (∀ p, mapLookup pid s.payments = some p →
        p.status = PaymentStatus.EXECUTED ∨ p.status = PaymentStatus.FAILED ∨
        p.status = PaymentStatus.CANCELLED ∨ p.status = PaymentStatus.DISPUTED →
        executePayment env s pid = (some "Cannot execute", s)) ∧
    (executePayment env s pid = (none, s') →
        (∃ p', mapLookup pid s'.payments = some p' ∧
           p'.status = PaymentStatus.EXECUTED) ∧
        executePayment env' s' pid = (some "Cannot execute", s')) := by
  constructor
  · intro p hp hterm
    have hns : ¬ (p.status = PaymentStatus.PENDING ∨
        p.status = PaymentStatus.APPROVED) := by
      rcases hterm with h | h | h | h <;> simp [h]
    simp [executePayment, hp, hns]
  · intro hsucc
    unfold executePayment at hsucc
    cases hE : mapLookup pid s.payments with
    | none => rw [hE] at hsucc; simp at hsucc
    | some p =>
        rw [hE] at hsucc
        dsimp only at hsucc
        by_cases hs : p.status = PaymentStatus.PENDING ∨
            p.status = PaymentStatus.APPROVED
        · rw [if_pos hs] at hsucc
          by_cases hc : allConditionsMet env p = true
          · rw [if_pos hc] at hsucc
            unfold executePaymentInternal at hsucc
            dsimp only at hsucc
            split at hsucc
            · simp at hsucc
            · have hs' := (Prod.mk.injEq _ _ _ _).mp hsucc |>.2
              have hlk : mapLookup pid s'.payments =
                  some { p with status := PaymentStatus.EXECUTED,
                                executedAt := env.blockTimestamp } := by
                rw [← hs']
                exact mapLookup_insert_self _ _ _
              refine ⟨⟨_, hlk, rfl⟩, ?_⟩
              simp [executePayment, hlk]
          · rw [if_neg hc] at hsucc
            simp at hsucc
        · rw [if_neg hs] at hsucc
          simp at hsucc

/-- Witness for C1 at a concrete state: after executing the sample
payment once, the second call fails with "Cannot execute" and returns
the state unchanged. -/
theorem executePayment_at_most_once_witness :
    executePayment sampleEnv ((executePayment sampleEnv sampleState 1).2) 1
      = (some "Cannot execute", (executePayment sampleEnv sampleState 1).2) :=
  ((executePayment_at_most_once sampleEnv sampleEnv sampleState
      ((executePayment sampleEnv sampleState 1).2) 1).2 (by decide)).2

end PayFlow

namespace PayFlow

/-- `_allConditionsMet` returns `true` exactly when the time-window and
approval-threshold conditions hold — nothing else is consulted. -/
theorem allConditionsMet_eq_true_iff (env : ExecEnv) (p : Payment) :
    allConditionsMet env p = true ↔
      (0 < p.conditions.validFrom → p.conditions.validFrom ≤ env.blockTimestamp) ∧
      (0 < p.conditions.validUntil → env.blockTimestamp ≤ p.conditions.validUntil) ∧
      (0 < p.conditions.requiredApprovals →
        p.conditions.requiredApprovals ≤ p.approvalCount) := by
  unfold allConditionsMet
  dsimp only
  split_ifs with h1 h2 h3 <;> simp_all

/-- C2 counterexample: the external compliance gate rejects, so the
spec-side execution condition is false, yet `executePayment` succeeds and
marks the payment `EXECUTED` — no compliance check is invoked at
execution. -/
theorem executePayment_ignores_compliance_gate :
    envGateDown.complianceGatePassed = false ∧
    specExecConditions envGateDown samplePayment = false ∧
    (executePayment envGateDown sampleState 1).1 = none ∧
    (mapLookup 1 (executePayment envGateDown sampleState 1).2.payments).map
        Payment.status = some PaymentStatus.EXECUTED := by decide

/-- C2 (amended).  A successful `executePayment` guarantees exactly the
time-window and approval-threshold conditions at execution time; the
compliance verdict of the external engine is never consulted — the
result is identical for any value of the gate. -/
theorem executePayment_conditions_no_compliance
    (env : ExecEnv) (s : CoreState) (pid : Nat) (p : Payment)
    (hp : mapLookup pid s.payments = some p)
    (hsucc : (executePayment env s pid).1 = none) :
    ((0 < p.conditions.validFrom → p.conditions.validFrom ≤ env.blockTimestamp) ∧
     (0 < p.conditions.validUntil → env.blockTimestamp ≤ p.conditions.validUntil) ∧
     (0 < p.conditions.requiredApprovals →
        p.conditions.requiredApprovals ≤ p.approvalCount)) ∧
    (∀ b, executePayment { env with complianceGatePassed := b } s pid =
          executePayment env s pid) := by
  constructor
  · have hstat : p.status = PaymentStatus.PENDING ∨
        p.status = PaymentStatus.APPROVED := by
      by_contra hs
      simp [executePayment, hp, hs] at hsucc
    have hc : allConditionsMet env p = true := by
      by_contra hc
      simp [executePayment, hp, hstat, hc] at hsucc
    exact (allConditionsMet_eq_true_iff env p).mp hc
  · intro b
    rfl

/-- Witness for C2's amended theorem: flipping the gate does not change
the concrete execution. -/
theorem executePayment_conditions_no_compliance_witness :
    executePayment { sampleEnv with complianceGatePassed := false } sampleState 1 =
      executePayment sampleEnv sampleState 1 :=
  (executePayment_conditions_no_compliance sampleEnv sampleState 1 samplePayment
      (by decide) (by decide)).2 false

/-- C3 counterexample: the needed pair's quote is halted and the realized
1:1 output (999 after fee) falls short of the expected target amount
(2000) — outside any slippage bound — yet execution succeeds, transfers
1:1, and the payment ends `EXECUTED`, never `FAILED`. -/
theorem fx_failure_not_failed_cex :
    envHalted.fxQuoteHalted = true ∧
    fxPayment.targetToken ≠ fxPayment.token ∧
    fxPayment.targetAmount = 2000 ∧
    (executePayment envHalted fxState 2).1 = none ∧
    (mapLookup 2 (executePayment envHalted fxState 2).2.payments).map
        Payment.status = some PaymentStatus.EXECUTED ∧
    (executePayment envHalted fxState 2).2.transfers =
      [⟨5, 99, 1⟩, ⟨6, 11, 999⟩] := by decide

/-- C3 (amended).  Cross-currency execution simulates a 1:1 conversion:
with the guards satisfied, the outcome depends only on the contract's
target-token balance — enough balance yields `EXECUTED` at 1:1,
insufficient balance reverts the call with the pre-state (the status is
never set to `FAILED`), and the oracle circuit-breaker flag is never
consulted. -/
theorem fx_execution_demo
    (env : ExecEnv) (s : CoreState) (pid : Nat) (p : Payment)
    (hp : mapLookup pid s.payments = some p)
    (hstat : p.status = PaymentStatus.PENDING ∨ p.status = PaymentStatus.APPROVED)
    (hcond : allConditionsMet env p = true)
    (hfx : p.targetToken ≠ p.token) :
    (env.balanceOf p.targetToken <
        p.amount - (if 0 < s.protocolFeeBps then p.amount * s.protocolFeeBps / 10000 else 0) →
      executePayment env s pid = (some "Insufficient liquidity", s)) ∧
    (p.amount - (if 0 < s.protocolFeeBps then p.amount * s.protocolFeeBps / 10000 else 0)
        ≤ env.balanceOf p.targetToken →
      (executePayment env s pid).1 = none ∧
      (mapLookup pid (executePayment env s pid).2.payments).map Payment.status =
        some PaymentStatus.EXECUTED) ∧
    (mapLookup pid (executePayment env s pid).2.payments).map Payment.status ≠
      some PaymentStatus.FAILED ∧
    (∀ b, executePayment { env with fxQuoteHalted := b } s pid =
          executePayment env s pid) := by
  have hbody : executePayment env s pid = executePaymentInternal env s pid p := by
    simp [executePayment, hp, hstat, hcond]
  refine ⟨?_, ?_, ?_, fun b => rfl⟩
  · intro hlt
    rw [hbody]
    simp [executePaymentInternal, performFXConversion, hfx, Nat.not_le.mpr hlt]
  · intro hle
    rw [hbody]
    simp [executePaymentInternal, performFXConversion, hfx, hle,
      mapLookup_insert_self]
  · rw [hbody]
    by_cases hle : p.amount -
        (if 0 < s.protocolFeeBps then p.amount * s.protocolFeeBps / 10000 else 0)
        ≤ env.balanceOf p.targetToken
    · simp [executePaymentInternal, performFXConversion, hfx, hle,
        mapLookup_insert_self]
    · have hfail : executePaymentInternal env s pid p =
          (some "Insufficient liquidity", s) := by
        simp [executePaymentInternal, performFXConversion, hfx, hle]
      rw [hfail]
      simp [hp]
      rcases hstat with h | h <;> simp [h]

end PayFlow

namespace PayFlow

/-- Witness for C3's amended theorem at the concrete cross-currency
payment: enough liquidity, so execution succeeds 1:1. -/
theorem fx_execution_demo_witness :
    (executePayment envHalted fxState 2).1 = none ∧
    (mapLookup 2 (executePayment envHalted fxState 2).2.payments).map
        Payment.status = some PaymentStatus.EXECUTED :=
  (fx_execution_demo envHalted fxState 2 fxPayment (by decide) (by decide)
      (by decide) (by decide)).2.1 (by decide)

end PayFlow

namespace Oracle

/-! ## Theorems: OracleAggregator -/

/-- C9.  When a submitted rate deviates from a positive current rate by
more than the pair's `maxDeviation`, `updatePrice` trips that pair's
circuit breaker and increments the trigger counter — and the resulting
state is exactly the old state with only those two changes: the report is
not stored in `oraclePrices`, the sources and counters are untouched, and
the pair keeps its `currentRate`, `lastUpdate`, `rateHistory` and
`timestamps`. -/
theorem updatePrice_deviation_frame
    (s : OracleState) (caller now pairId rate conf : Nat) (p : CurrencyPair)
    (hrole : caller ∈ s.priceUpdaters)
    (hp : mapLookup pairId s.pairs = some p)
    (hactive : p.isActive = true)
    (hrate : 0 < rate)
    (hconf : conf ≤ 100)
    (hpos : 0 < p.currentRate)
    (hdev : p.maxDeviation < calculateDeviation p.currentRate rate) :
    updatePrice s caller now pairId rate conf =
      (none,
        { s with
            pairs := mapInsert pairId { p with circuitBreakerTripped := true } s.pairs
            circuitBreakerTriggers := s.circuitBreakerTriggers + 1 }) := by
  simp [updatePrice, hrole, hp, hactive, Nat.pos_iff_ne_zero.mp hrate,
    Nat.not_lt.mpr hconf, hpos, hdev]

/-- Witness for C9: submitting 200 against a current rate of 100 (10000
bps deviation, above the 500 bps limit) produces exactly the
tripped-and-counted state. -/
theorem updatePrice_deviation_frame_witness :
    updatePrice s9 5 1000 7 200 50 =
      (none,
        { s9 with
            pairs := mapInsert 7
              { { pair7 with currentRate := 100 } with circuitBreakerTripped := true }
              s9.pairs
            circuitBreakerTriggers := s9.circuitBreakerTriggers + 1 }) :=
  updatePrice_deviation_frame s9 5 1000 7 200 50 { pair7 with currentRate := 100 }
    (by decide) (by decide) (by decide) (by decide) (by decide) (by decide) (by decide)

end Oracle

namespace Oracle

/-- `_trimHistory` never touches the circuit-breaker flag. -/
theorem trimHistory_tripped (now : Nat) (p : CurrencyPair) :
    (trimHistory now p).circuitBreakerTripped = p.circuitBreakerTripped := by
  unfold trimHistory
  dsimp only
  split <;> rfl

/-- `updatePrice` never clears a tripped circuit breaker. -/
theorem updatePrice_tripped_mono (s : OracleState) (pid : Nat)
    (h : trippedAt s pid) (caller now pairId rate conf : Nat) :
    trippedAt (updatePrice s caller now pairId rate conf).2 pid := by
  obtain ⟨p, hp, htr⟩ := h
  unfold updatePrice
  split
  · cases hE : mapLookup pairId s.pairs with
    | none => exact ⟨p, hp, htr⟩
    | some pair =>
        dsimp only
        by_cases h1 : ¬ pair.isActive = true
        · rw [if_pos h1]
          exact ⟨p, hp, htr⟩
        · rw [if_neg h1]
          by_cases h2 : rate = 0
          · rw [if_pos h2]
            exact ⟨p, hp, htr⟩
          · rw [if_neg h2]
            by_cases h3 : 100 < conf
            · rw [if_pos h3]
              exact ⟨p, hp, htr⟩
            · rw [if_neg h3]
              by_cases h4 : 0 < pair.currentRate ∧
                  pair.maxDeviation < calculateDeviation pair.currentRate rate
              · rw [if_pos h4]
                by_cases hq : pairId = pid
                · subst hq
                  exact ⟨{ pair with circuitBreakerTripped := true },
                    mapLookup_insert_self _ _ _, rfl⟩
                · refine ⟨p, ?_, htr⟩
                  show mapLookup pid (mapInsert pairId _ s.pairs) = some p
                  rw [mapLookup_insert_ne _ _ _ _ hq]
                  exact hp
              · rw [if_neg h4]
                by_cases hq : pairId = pid
                · subst hq
                  have hpp : pair = p := by
                    rw [hE] at hp
                    exact Option.some.inj hp
                  refine ⟨_, mapLookup_insert_self _ _ _, ?_⟩
                  rw [trimHistory_tripped]
                  show pair.circuitBreakerTripped = true
                  rw [hpp]
                  exact htr
                · refine ⟨p, ?_, htr⟩
                  show mapLookup pid (mapInsert pairId _ _) = some p
                  rw [mapLookup_insert_ne _ _ _ _ hq]
                  exact hp
  · exact ⟨p, hp, htr⟩

/-- One batch entry never touches a pair's breaker flag or TWAP arrays. -/
theorem batchStep_pairFrame (caller now : Nat) (s : OracleState)
    (e : Nat × Nat × Nat) (q : Nat) :
    pairFrame (batchStep caller now s e) q = pairFrame s q := by
  unfold batchStep
  cases hE : mapLookup e.1 s.pairs with
  | none => rfl
  | some pair =>
      dsimp only
      split
      · unfold pairFrame
        by_cases hq : e.1 = q
        · subst hq
          rw [mapLookup_insert_self, hE]
          rfl
        · rw [mapLookup_insert_ne _ _ _ _ hq]
      · rfl

/-- The whole batch loop never touches a pair's breaker flag or TWAP
arrays. -/
theorem batchFold_pairFrame (caller now : Nat)
    (entries : List (Nat × Nat × Nat)) (s : OracleState) (q : Nat) :
    pairFrame (entries.foldl (batchStep caller now) s) q = pairFrame s q := by
  induction entries generalizing s with
  | nil => rfl
  | cons e rest ih => rw [List.foldl_cons, ih, batchStep_pairFrame]

/-- C8.  Once a pair's circuit breaker is tripped, no `updatePrice`, no
`batchUpdatePrices` and no rate query ever clears it; the only operation
that resets it is `resetCircuitBreaker`, which requires the
`ORACLE_ADMIN` role (a non-admin call fails and changes nothing) and
then sets the flag to false. -/
theorem circuitBreaker_no_self_heal (s : OracleState) (pid : Nat)
    (htripped : trippedAt s pid) :
    (∀ caller now pairId rate conf,
        trippedAt (updatePrice s caller now pairId rate conf).2 pid) ∧
    (∀ caller now ids rates confs,
        trippedAt (batchUpdatePrices s caller now ids rates confs).2 pid) ∧
    (∀ now q, (getRate s now q).2 = s) ∧
    (∀ caller, caller ∉ s.oracleAdmins →
        resetCircuitBreaker s caller pid = (some "AccessControl", s)) ∧
    (∀ caller p, caller ∈ s.oracleAdmins → mapLookup pid s.pairs = some p →
        (mapLookup pid (resetCircuitBreaker s caller pid).2.pairs).map
          CurrencyPair.circuitBreakerTripped = some false) := by
  refine ⟨fun caller now pairId rate conf =>
      updatePrice_tripped_mono s pid htripped caller now pairId rate conf,
    ?_, fun now q => rfl, ?_, ?_⟩
  · intro caller now ids rates confs
    obtain ⟨p, hp, htr⟩ := htripped
    have hframe : pairFrame (batchUpdatePrices s caller now ids rates confs).2 pid
        = pairFrame s pid := by
      unfold batchUpdatePrices
      split
      · split
        · rfl
        · split
          · rfl
          · exact batchFold_pairFrame caller now _ s pid
      · rfl
    have hsrc : pairFrame s pid =
        some (true, p.rateHistory, p.timestamps) := by
      simp [pairFrame, hp, htr]
    rw [hsrc] at hframe
    cases hL : mapLookup pid (batchUpdatePrices s caller now ids rates confs).2.pairs with
    | none =>
        unfold pairFrame at hframe
        rw [hL] at hframe
        simp at hframe
    | some p' =>
        unfold pairFrame at hframe
        rw [hL] at hframe
        simp only [Option.map_some', Option.some.injEq] at hframe
        exact ⟨p', hL, congrArg (fun t => t.1) hframe⟩
  · intro caller hna
    simp [resetCircuitBreaker, hna]
  · intro caller p ha hp
    simp [resetCircuitBreaker, ha, hp, mapLookup_insert_self]

/-- Witness for C8: with pair 7 tripped, a further price update leaves it
tripped, and a non-admin reset fails leaving the state unchanged. -/
theorem circuitBreaker_no_self_heal_witness :
    trippedAt (updatePrice s8 5 1000 7 100 50).2 7 ∧
    resetCircuitBreaker s8 41 7 = (some "AccessControl", s8) := by
  have h := circuitBreaker_no_self_heal s8 7
    ⟨{ pair7 with circuitBreakerTripped := true }, by decide, rfl⟩
  exact ⟨h.1 5 1000 7 100 50, h.2.2.2.1 41 (by decide)⟩

end Oracle

namespace Oracle

/-- C4 counterexample: the engine's minimum is `minOracleCount = 2`, not
the spec's `MIN_VALID_SOURCES = 3` — with exactly 2 fresh sources it
returns the full weighted consensus (11), not the last-known rate (99)
or any degraded quote; and with 0 fresh sources a successful
`updatePrice` keeps the last-known rate but signals no emergency: the
trigger counter stays 0 and the breaker stays untripped. -/
theorem oracle_min_sources_cex :
    freshSourceCount s4 1000 7 = 2 ∧
    specMinValidSources = 3 ∧
    calculateAggregatedRate s4 1000 7 = 11 ∧
    (mapLookup 7 s4.pairs).map CurrencyPair.currentRate = some 99 ∧
    freshSourceCount s4z 1000 7 = 0 ∧
    (updatePrice s4z 5 1000 7 100 50).1 = none ∧
    (updatePrice s4z 5 1000 7 100 50).2.circuitBreakerTriggers = 0 ∧
    (mapLookup 7 (updatePrice s4z 5 1000 7 100 50).2.pairs).map
      (fun p => (p.circuitBreakerTripped, p.currentRate)) = some (false, 99) := by
  decide

/-- C4 (amended).  When the aggregation loop is left with zero total
weight or fewer than `minOracleCount` (default 2) fresh sources, the
aggregated rate equals the pair's last-known `currentRate` unchanged;
and the circuit-breaker trigger counter moves only through the deviation
check of `updatePrice` — never through a source-count collapse. -/
theorem aggregate_fallback_behaviour
    (s : OracleState) (now pairId : Nat) (p : CurrencyPair)
    (hp : mapLookup pairId s.pairs = some p)
    (h : (aggregateFold s now pairId).2.1 = 0 ∨
         (aggregateFold s now pairId).2.2 < s.minOracleCount) :
    calculateAggregatedRate s now pairId = p.currentRate ∧
    (∀ caller rate conf,
        (updatePrice s caller now pairId rate conf).2.circuitBreakerTriggers ≠
          s.circuitBreakerTriggers →
        0 < p.currentRate ∧
        p.maxDeviation < calculateDeviation p.currentRate rate) := by
  constructor
  · unfold calculateAggregatedRate
    dsimp only
    rw [if_pos h, hp]
  · intro caller rate conf hne
    unfold updatePrice at hne
    split at hne
    · rw [hp] at hne
      dsimp only at hne
      by_cases h1 : ¬ p.isActive = true
      · rw [if_pos h1] at hne
        exact absurd rfl hne
      · rw [if_neg h1] at hne
        by_cases h2 : rate = 0
        · rw [if_pos h2] at hne
          exact absurd rfl hne
        · rw [if_neg h2] at hne
          by_cases h3 : 100 < conf
          · rw [if_pos h3] at hne
            exact absurd rfl hne
          · rw [if_neg h3] at hne
            by_cases h4 : 0 < p.currentRate ∧
                p.maxDeviation < calculateDeviation p.currentRate rate
            · exact h4
            · rw [if_neg h4] at hne
              exact absurd rfl hne
    · exact absurd rfl hne

/-- Witness for C4's amended theorem: with no registered sources, the
aggregation falls back to pair 7's last-known rate. -/
theorem aggregate_fallback_behaviour_witness :
    calculateAggregatedRate s4z 1000 7 = pair7.currentRate :=
  (aggregate_fallback_behaviour s4z 1000 7 pair7 (by decide) (Or.inl (by decide))).1

/-- C5 counterexample: both surviving sources report confidence 100, are
perfectly fresh (discount factor 1) and have no failure history, so the
spec's confidence-weighted consensus of their prices 10 and 20 is 15 —
but the code aggregates by the sources' static weights (9000 vs 1000)
and yields 11: confidence does not enter the average. -/
theorem weighted_mean_ignores_confidence_cex :
    survivors s4 1000 7 = [(10, 9000), (20, 1000)] ∧
    (mapLookup (7, 1) s4.oraclePrices).map PriceData.confidence = some 100 ∧
    (mapLookup (7, 2) s4.oraclePrices).map PriceData.confidence = some 100 ∧
    specStaleDiscount 1000 3600 1000 100 = 100 ∧
    specWeightedPrice [(10, 100), (20, 100)] = 15 ∧
    calculateAggregatedRate s4 1000 7 = 11 ∧
    (11 : Nat) ≠ 15 := by decide

/-- The aggregation loop body is the survivor-wise accumulation. -/
theorem aggregateStep_survivorFn (s : OracleState) (now pairId : Nat)
    (acc : Nat × Nat × Nat) (oracle : Nat) :
    aggregateStep s now pairId acc oracle =
      match survivorFn s now pairId oracle with
      | none => acc
      | some rc => (acc.1 + rc.1 * rc.2, acc.2.1 + rc.2, acc.2.2 + 1) := by
  unfold aggregateStep survivorFn
  cases mapLookup oracle s.oracleSources with
  | none => rfl
  | some src =>
      dsimp only
      split_ifs with h1
      · cases mapLookup (pairId, oracle) s.oraclePrices with
        | none => rfl
        | some price =>
            dsimp only
            split_ifs with h2 h3 <;> rfl
      · rfl

/-- The full aggregation loop computes the survivor sums and count. -/
theorem aggregateFold_eq_sums (s : OracleState) (now pairId : Nat)
    (l : List Nat) (acc : Nat × Nat × Nat) :
    l.foldl (aggregateStep s now pairId) acc =
      (acc.1 + ((l.filterMap (survivorFn s now pairId)).map
          (fun rc => rc.1 * rc.2)).sum,
       acc.2.1 + ((l.filterMap (survivorFn s now pairId)).map Prod.snd).sum,
       acc.2.2 + (l.filterMap (survivorFn s now pairId)).length) := by
  induction l generalizing acc with
  | nil =>
      obtain ⟨a, b, c⟩ := acc
      simp
  | cons o rest ih =>
      rw [List.foldl_cons, ih, aggregateStep_survivorFn]
      cases hS : survivorFn s now pairId o with
      | none => simp [List.filterMap_cons, hS]
      | some rc =>
          simp only [List.filterMap_cons, hS, List.map_cons, List.sum_cons,
            List.length_cons, Prod.mk.injEq]
          refine ⟨by omega, by omega, by omega⟩

/-- C5 (amended).  Over the surviving (active, fresh) reports, the
aggregated rate is the mean weighted by each source's static configured
weight, `Σ(price_i × weight_i) / Σ(weight_i)`: reported confidence never
enters the average, stale reports are excluded outright rather than
discounted, and no failure-count decay exists in the engine. -/
theorem aggregated_is_source_weighted_mean
    (s : OracleState) (now pairId : Nat)
    (hW : ((survivors s now pairId).map Prod.snd).sum ≠ 0)
    (hn : s.minOracleCount ≤ (survivors s now pairId).length) :
    calculateAggregatedRate s now pairId =
      ((survivors s now pairId).map (fun rc => rc.1 * rc.2)).sum /
        ((survivors s now pairId).map Prod.snd).sum := by
  unfold calculateAggregatedRate aggregateFold
  rw [aggregateFold_eq_sums]
  unfold survivors at hW hn ⊢
  simp only [Nat.zero_add]
  rw [if_neg (not_or.mpr ⟨hW, Nat.not_lt.mpr hn⟩)]

/-- Witness for C5's amended theorem at the two-source fixture. -/
theorem aggregated_is_source_weighted_mean_witness :
    calculateAggregatedRate s4 1000 7 =
      ((survivors s4 1000 7).map (fun rc => rc.1 * rc.2)).sum /
        ((survivors s4 1000 7).map Prod.snd).sum :=
  aggregated_is_source_weighted_mean s4 1000 7 (by decide) (by decide)

end Oracle

namespace Oracle

/-- A batch entry never changes which pairs exist or are active, so the
qualification of later entries is unaffected. -/
theorem qualifies_batchStep (caller now : Nat) (s : OracleState)
    (e : Nat × Nat × Nat) (pid r : Nat) :
    qualifies (batchStep caller now s e) pid r = qualifies s pid r := by
  unfold batchStep
  cases hE : mapLookup e.1 s.pairs with
  | none => rfl
  | some pair =>
      dsimp only
      split
      · unfold qualifies
        dsimp only
        by_cases hq : e.1 = pid
        · subst hq
          rw [mapLookup_insert_self, hE]
        · rw [mapLookup_insert_ne _ _ _ _ hq]
      · rfl

/-- `lastQual` only depends on the qualification function pointwise. -/
theorem lastQual_congr {f g : Nat → Nat → Bool}
    (h : ∀ a b, f a b = g a b) (q : Nat) (l : List (Nat × Nat × Nat)) :
    lastQual f q l = lastQual g q l := by
  induction l with
  | nil => rfl
  | cons e rest ih =>
      unfold lastQual
      rw [ih, h e.1 e.2.1]

/-- What one batch entry does to the `pairs` slot at `q`. -/
theorem batchStep_pairs (caller now : Nat) (s : OracleState)
    (e : Nat × Nat × Nat) (q : Nat) :
    mapLookup q (batchStep caller now s e).pairs =
      if e.1 = q ∧ qualifies s e.1 e.2.1 then
        (mapLookup q s.pairs).map
          (fun p => { p with currentRate := e.2.1, lastUpdate := now })
      else mapLookup q s.pairs := by
  unfold batchStep qualifies
  cases hE : mapLookup e.1 s.pairs with
  | none =>
      dsimp only
      rw [if_neg (by simp)]
  | some pair =>
      dsimp only
      by_cases hc : pair.isActive = true ∧ 0 < e.2.1
      · rw [if_pos hc]
        by_cases hq : e.1 = q
        · subst hq
          rw [mapLookup_insert_self, hE,
            if_pos ⟨rfl, by simp [hc.1, hc.2]⟩]
          rfl
        · rw [mapLookup_insert_ne _ _ _ _ hq,
            if_neg (fun hcon => hq hcon.1)]
      · rw [if_neg hc, if_neg (by
          rintro ⟨hq, hb⟩
          exact hc (by simpa [Bool.and_eq_true] using hb))]

/-- What one batch entry does to the caller's `oraclePrices` slot at
`(q, caller)`. -/
theorem batchStep_prices (caller now : Nat) (s : OracleState)
    (e : Nat × Nat × Nat) (q : Nat) :
    mapLookup (q, caller) (batchStep caller now s e).oraclePrices =
      if e.1 = q ∧ qualifies s e.1 e.2.1 then
        some { rate := e.2.1, timestamp := now, confidence := e.2.2,
               isActive := true }
      else mapLookup (q, caller) s.oraclePrices := by
  unfold batchStep qualifies
  cases hE : mapLookup e.1 s.pairs with
  | none =>
      dsimp only
      rw [if_neg (by simp)]
  | some pair =>
      dsimp only
      by_cases hc : pair.isActive = true ∧ 0 < e.2.1
      · rw [if_pos hc]
        by_cases hq : e.1 = q
        · subst hq
          rw [mapLookup_insert_self,
            if_pos ⟨rfl, by simp [hc.1, hc.2]⟩]
        · rw [mapLookup_insert_ne _ _ _ _ (by
            intro hcon
            exact hq (congrArg Prod.fst hcon)),
            if_neg (fun hcon => hq hcon.1)]
      · rw [if_neg hc, if_neg (by
          rintro ⟨hq, hb⟩
          exact hc (by simpa [Bool.and_eq_true] using hb))]

end Oracle

namespace Oracle

/-- The batch loop's effect on a pair: its `currentRate`/`lastUpdate`
are overwritten by the last qualifying entry for it, directly with the
caller's submitted rate. -/
theorem batchFold_pairs (caller now : Nat) (entries : List (Nat × Nat × Nat))
    (s : OracleState) (q : Nat) :
    mapLookup q ((entries.foldl (batchStep caller now) s).pairs) =
      match lastQual (qualifies s) q entries with
      | none => mapLookup q s.pairs
      | some rc => (mapLookup q s.pairs).map
          (fun p => { p with currentRate := rc.1, lastUpdate := now }) := by
  induction entries generalizing s with
  | nil => rfl
  | cons e rest ih =>
      rw [List.foldl_cons, ih,
        lastQual_congr (qualifies_batchStep caller now s e) q rest]
      simp only [lastQual]
      cases hLQ : lastQual (qualifies s) q rest with
      | some v =>
          dsimp only
          rw [batchStep_pairs]
          by_cases hcond : e.1 = q ∧ qualifies s e.1 e.2.1
          · rw [if_pos hcond]
            cases hQ : mapLookup q s.pairs with
            | none => rfl
            | some p =>
                obtain ⟨b, qt, pi, ia, cr, lu, rh, ts, tp, md, cb⟩ := p
                rfl
          · rw [if_neg hcond]
      | none =>
          dsimp only
          rw [batchStep_pairs]
          by_cases hcond : e.1 = q ∧ qualifies s e.1 e.2.1
          · rw [if_pos hcond, if_pos hcond]
          · rw [if_neg hcond, if_neg hcond]

/-- The batch loop's effect on the caller's stored report for a pair:
the last qualifying entry's rate and confidence are stored verbatim,
with no confidence-range validation. -/
theorem batchFold_prices (caller now : Nat) (entries : List (Nat × Nat × Nat))
    (s : OracleState) (q : Nat) :
    mapLookup (q, caller) ((entries.foldl (batchStep caller now) s).oraclePrices) =
      match lastQual (qualifies s) q entries with
      | none => mapLookup (q, caller) s.oraclePrices
      | some rc => some { rate := rc.1, timestamp := now, confidence := rc.2,
                          isActive := true } := by
  induction entries generalizing s with
  | nil => rfl
  | cons e rest ih =>
      rw [List.foldl_cons, ih,
        lastQual_congr (qualifies_batchStep caller now s e) q rest]
      simp only [lastQual]
      cases hLQ : lastQual (qualifies s) q rest with
      | some v => rfl
      | none =>
          dsimp only
          rw [batchStep_prices]
          by_cases hcond : e.1 = q ∧ qualifies s e.1 e.2.1
          · rw [if_pos hcond, if_pos hcond]
          · rw [if_neg hcond, if_neg hcond]

/-- C10.  With matching array lengths, `batchUpdatePrices` succeeds and:
every pair keeps its circuit-breaker flag and TWAP history (no deviation
check, no history append); each pair touched by a qualifying entry (pair
active, rate positive) gets its `currentRate` overwritten directly with
the caller's submitted rate (the last qualifying one), with no
multi-oracle aggregation; and the caller's report is stored verbatim,
its confidence unvalidated. -/
theorem batchUpdate_direct_rate_writes
    (s : OracleState) (caller now : Nat) (pairIds rates confidences : List Nat)
    (hrole : caller ∈ s.priceUpdaters)
    (hlen1 : pairIds.length = rates.length)
    (hlen2 : pairIds.length = confidences.length) :
    (batchUpdatePrices s caller now pairIds rates confidences).1 = none ∧
    (∀ q, pairFrame (batchUpdatePrices s caller now pairIds rates confidences).2 q
        = pairFrame s q) ∧
    (∀ q, mapLookup q
        (batchUpdatePrices s caller now pairIds rates confidences).2.pairs =
      match lastQual (qualifies s) q (pairIds.zip (rates.zip confidences)) with
      | none => mapLookup q s.pairs
      | some rc => (mapLookup q s.pairs).map
          (fun p => { p with currentRate := rc.1, lastUpdate := now })) ∧
    (∀ q, mapLookup (q, caller)
        (batchUpdatePrices s caller now pairIds rates confidences).2.oraclePrices =
      match lastQual (qualifies s) q (pairIds.zip (rates.zip confidences)) with
      | none => mapLookup (q, caller) s.oraclePrices
      | some rc => some { rate := rc.1, timestamp := now, confidence := rc.2,
                          isActive := true }) := by
  have hred : batchUpdatePrices s caller now pairIds rates confidences =
      (none,
        { (pairIds.zip (rates.zip confidences)).foldl (batchStep caller now) s
          with totalPriceUpdates :=
            ((pairIds.zip (rates.zip confidences)).foldl
              (batchStep caller now) s).totalPriceUpdates + pairIds.length }) := by
    unfold batchUpdatePrices
    rw [if_pos hrole, if_neg (not_ne_iff.mpr hlen1), if_neg (not_ne_iff.mpr hlen2)]
  rw [hred]
  exact ⟨rfl, fun q => batchFold_pairFrame caller now _ s q,
    fun q => batchFold_pairs caller now _ s q,
    fun q => batchFold_prices caller now _ s q⟩

/-- Witness for C10 at a concrete batch: two qualifying entries for pair
7 (the second, rate 70 with out-of-range confidence 260, wins), one
entry for the inactive pair 8 and one for the absent pair 9. -/
theorem batchUpdate_direct_rate_writes_witness :
    mapLookup 7 (batchUpdatePrices sBatch 5 1000 [7, 8, 9, 7] [50, 60, 1, 70]
        [250, 5, 5, 260]).2.pairs =
      match lastQual (qualifies sBatch) 7
          ([7, 8, 9, 7].zip ([50, 60, 1, 70].zip [250, 5, 5, 260])) with
      | none => mapLookup 7 sBatch.pairs
      | some rc => (mapLookup 7 sBatch.pairs).map
          (fun p => { p with currentRate := rc.1, lastUpdate := 1000 }) :=
  (batchUpdate_direct_rate_writes sBatch 5 1000 [7, 8, 9, 7] [50, 60, 1, 70]
      [250, 5, 5, 260] (by decide) (by decide) (by decide)).2.2.1 7

end Oracle

namespace Escrow

/-! ## Theorems: SmartEscrow -/

theorem outflowFor_append (k : Nat) (l l' : List Payout) :
    outflowFor k (l ++ l') = outflowFor k l + outflowFor k l' := by
  unfold outflowFor
  rw [List.map_append, List.sum_append]

theorem outflowFor_single (k : Nat) (t : Payout) :
    outflowFor k [t] = if t.eid = some k then t.amount else 0 := by
  unfold outflowFor
  simp

/-- Terminal transition with a payout of exactly the escrow's principal
preserves the funds-move-once invariant. -/
theorem fundsOnce_terminal_payout (s s' : EscrowState) (eid : Nat) (e e' : Esc)
    (newPayouts : List Payout)
    (hesc : s'.escrows = mapInsert eid e' s.escrows)
    (hpay : s'.payouts = s.payouts ++ newPayouts)
    (htot : s'.totalEscrowsCreated = s.totalEscrowsCreated)
    (hE : mapLookup eid s.escrows = some e)
    (hactive : ¬ (e.status = EscrowStatus.RELEASED ∨
        e.status = EscrowStatus.REFUNDED))
    (hterm : e'.status = EscrowStatus.RELEASED ∨
        e'.status = EscrowStatus.REFUNDED)
    (hamount : e'.amount = e.amount)
    (hnew : outflowFor eid newPayouts = e.amount)
    (hother : ∀ j, j ≠ eid → outflowFor j newPayouts = 0)
    (hinv : fundsOnce s) : fundsOnce s' := by
  obtain ⟨h1, h2⟩ := hinv
  constructor
  · intro k f hk
    rw [hesc] at hk
    rw [hpay, htot, outflowFor_append]
    by_cases hq : eid = k
    · subst hq
      rw [mapLookup_insert_self] at hk
      obtain rfl : e' = f := Option.some.inj hk
      have he := h1 eid e hE
      refine ⟨he.1, ?_⟩
      rw [hnew, he.2, if_neg hactive, if_pos hterm, hamount, Nat.zero_add]
    · rw [mapLookup_insert_ne _ _ _ _ hq] at hk
      have hf := h1 k f hk
      rw [hother k (fun hkk => hq hkk.symm), hf.2, Nat.add_zero]
      exact ⟨hf.1, rfl⟩
  · intro k hk
    rw [hesc] at hk
    by_cases hq : eid = k
    · subst hq
      rw [mapLookup_insert_self] at hk
      cases hk
    · rw [mapLookup_insert_ne _ _ _ _ hq] at hk
      rw [hpay, outflowFor_append, h2 k hk,
        hother k (fun hkk => hq hkk.symm), Nat.add_zero]

/-- An escrow update that keeps status-terminality, the principal and the
ledger preserves the invariant. -/
theorem fundsOnce_neutral_update (s s' : EscrowState) (eid : Nat) (e e' : Esc)
    (hesc : s'.escrows = mapInsert eid e' s.escrows)
    (hpay : s'.payouts = s.payouts)
    (htot : s'.totalEscrowsCreated = s.totalEscrowsCreated)
    (hE : mapLookup eid s.escrows = some e)
    (hstat : (e'.status = EscrowStatus.RELEASED ∨
        e'.status = EscrowStatus.REFUNDED) ↔
      (e.status = EscrowStatus.RELEASED ∨ e.status = EscrowStatus.REFUNDED))
    (hamount : e'.amount = e.amount)
    (hinv : fundsOnce s) : fundsOnce s' := by
  obtain ⟨h1, h2⟩ := hinv
  constructor
  · intro k f hk
    rw [hesc] at hk
    rw [hpay, htot]
    by_cases hq : eid = k
    · subst hq
      rw [mapLookup_insert_self] at hk
      obtain rfl : e' = f := Option.some.inj hk
      have he := h1 eid e hE
      refine ⟨he.1, ?_⟩
      rw [he.2, hamount]
      by_cases ht : e.status = EscrowStatus.RELEASED ∨
          e.status = EscrowStatus.REFUNDED
      · rw [if_pos ht, if_pos (hstat.mpr ht)]
      · rw [if_neg ht, if_neg (fun hcon => ht (hstat.mp hcon))]
    · rw [mapLookup_insert_ne _ _ _ _ hq] at hk
      exact h1 k f hk
  · intro k hk
    rw [hesc] at hk
    by_cases hq : eid = k
    · subst hq
      rw [mapLookup_insert_self] at hk
      cases hk
    · rw [mapLookup_insert_ne _ _ _ _ hq] at hk
      rw [hpay]
      exact h2 k hk

/-- Creating a fresh active escrow (fee payouts carry no escrow tag)
preserves the invariant. -/
theorem fundsOnce_create (s s' : EscrowState) (e' : Esc)
    (newPayouts : List Payout)
    (hesc : s'.escrows = mapInsert s.totalEscrowsCreated e' s.escrows)
    (hpay : s'.payouts = s.payouts ++ newPayouts)
    (htot : s'.totalEscrowsCreated = s.totalEscrowsCreated + 1)
    (hstat : e'.status = EscrowStatus.ACTIVE)
    (hnew : ∀ j, outflowFor j newPayouts = 0)
    (hinv : fundsOnce s) : fundsOnce s' := by
  obtain ⟨h1, h2⟩ := hinv
  have hfresh : mapLookup s.totalEscrowsCreated s.escrows = none := by
    cases hL : mapLookup s.totalEscrowsCreated s.escrows with
    | none => rfl
    | some f => exact absurd (h1 _ f hL).1 (lt_irrefl _)
  constructor
  · intro k f hk
    rw [hesc] at hk
    rw [hpay, htot, outflowFor_append, hnew, Nat.add_zero]
    by_cases hq : s.totalEscrowsCreated = k
    · subst hq
      rw [mapLookup_insert_self] at hk
      obtain rfl : e' = f := Option.some.inj hk
      refine ⟨Nat.lt_succ_self _, ?_⟩
      rw [h2 _ hfresh, if_neg (by simp [hstat])]
    · rw [mapLookup_insert_ne _ _ _ _ hq] at hk
      have hf := h1 k f hk
      exact ⟨Nat.lt_succ_of_lt hf.1, hf.2⟩
  · intro k hk
    rw [hesc] at hk
    by_cases hq : s.totalEscrowsCreated = k
    · subst hq
      rw [mapLookup_insert_self] at hk
      cases hk
    · rw [mapLookup_insert_ne _ _ _ _ hq] at hk
      rw [hpay, outflowFor_append, h2 k hk, hnew, Nat.add_zero]

end Escrow

namespace Escrow

/-- Overwriting a freshly overwritten slot collapses to one write. -/
theorem mapInsert_insert {α β : Type} [DecidableEq α] (k : α) (v w : β)
    (l : List (α × β)) : mapInsert k v (mapInsert k w l) = mapInsert k v l := by
  induction l with
  | nil => simp [mapInsert]
  | cons hd tl ih =>
      obtain ⟨k', v'⟩ := hd
      by_cases h : k' = k
      · simp [mapInsert, h]
      · simp [mapInsert, h, ih]

/-- Every SmartEscrow operation preserves the funds-move-once invariant. -/
theorem fundsOnce_step (s : EscrowState) (now : Nat) (op : EscrowOp)
    (hinv : fundsOnce s) : fundsOnce (stepEscrow s now op) := by
  cases op with
  | createTimeBased caller pid ben tok amt rel dw =>
      unfold stepEscrow createTimeBasedEscrow createEscrowInternal
      dsimp only
      split_ifs with h1 h2 h3 h4
      · exact hinv
      · exact hinv
      · exact hinv
      · refine fundsOnce_create s _ _ _ rfl rfl rfl rfl (fun j => ?_) hinv
        rw [outflowFor_single]
        simp
      · exact fundsOnce_create s _ _ _ rfl rfl rfl rfl (fun j => rfl) hinv
  | createApproval caller pid ben tok amt dd =>
      unfold stepEscrow createApprovalEscrow createEscrowInternal
      dsimp only
      split_ifs with h1 h2 h3
      · exact hinv
      · exact hinv
      · refine fundsOnce_create s _ _ _ rfl rfl rfl rfl (fun j => ?_) hinv
        rw [outflowFor_single]
        simp
      · exact fundsOnce_create s _ _ _ rfl rfl rfl rfl (fun j => rfl) hinv
  | approve caller eid =>
      unfold stepEscrow approveRelease releaseEscrowInternal
      dsimp only
      cases hE : mapLookup eid s.escrows with
      | none =>
          try rw [hE]
          exact hinv
      | some e =>
          obtain ⟨eidF, pidF, dep, ben, arb, tok, amtF, feeF, st, ct, rt, dd,
            da, ba, rs, sc, oid, om, ca⟩ := e
          try rw [hE]
          dsimp only
          split_ifs with hA hdep hda hrel hben hba hrel'
          · exact hinv
          · rw [mapInsert_insert]
            refine fundsOnce_terminal_payout s _ eid _ _ _ rfl rfl rfl hE
              ?_ ?_ rfl ?_ ?_ hinv
            · rw [show st = EscrowStatus.ACTIVE from hA]
              simp
            · exact Or.inl rfl
            · rw [outflowFor_single]
              simp
            · intro j hj
              rw [outflowFor_single]
              simp [Ne.symm hj]
          · exact fundsOnce_neutral_update s _ eid _ _ rfl rfl rfl hE
              Iff.rfl rfl hinv
          · exact hinv
          · rw [mapInsert_insert]
            refine fundsOnce_terminal_payout s _ eid _ _ _ rfl rfl rfl hE
              ?_ ?_ rfl ?_ ?_ hinv
            · rw [show st = EscrowStatus.ACTIVE from hA]
              simp
            · exact Or.inl rfl
            · rw [outflowFor_single]
              simp
            · intro j hj
              rw [outflowFor_single]
              simp [Ne.symm hj]
          · exact fundsOnce_neutral_update s _ eid _ _ rfl rfl rfl hE
              Iff.rfl rfl hinv
          · exact hinv
          · exact hinv
  | release eid =>
      unfold stepEscrow releaseEscrow releaseEscrowInternal
      dsimp only
      cases hE : mapLookup eid s.escrows with
      | none =>
          try rw [hE]
          exact hinv
      | some e =>
          obtain ⟨eidF, pidF, dep, ben, arb, tok, amtF, feeF, st, ct, rt, dd,
            da, ba, rs, sc, oid, om, ca⟩ := e
          try rw [hE]
          dsimp only
          split_ifs with hA hcan
          · refine fundsOnce_terminal_payout s _ eid _ _ _ rfl rfl rfl hE
              ?_ ?_ rfl ?_ ?_ hinv
            · rw [show st = EscrowStatus.ACTIVE from hA]
              simp
            · exact Or.inl rfl
            · rw [outflowFor_single]
              simp
            · intro j hj
              rw [outflowFor_single]
              simp [Ne.symm hj]
          · exact hinv
          · exact hinv
  | dispute caller eid =>
      unfold stepEscrow raiseDispute
      dsimp only
      cases hE : mapLookup eid s.escrows with
      | none =>
          try rw [hE]
          exact hinv
      | some e =>
          obtain ⟨eidF, pidF, dep, ben, arb, tok, amtF, feeF, st, ct, rt, dd,
            da, ba, rs, sc, oid, om, ca⟩ := e
          try rw [hE]
          dsimp only
          split_ifs with hA hparty hwin
          · refine fundsOnce_neutral_update s _ eid _ _ rfl rfl rfl hE ?_ rfl hinv
            rw [show st = EscrowStatus.ACTIVE from hA]
            simp
          · exact hinv
          · exact hinv
          · exact hinv
  | resolve caller eid recip amt =>
      unfold stepEscrow resolveDispute
      dsimp only
      by_cases harb : caller ∈ s.arbiters
      · rw [if_pos harb]
        cases hE : mapLookup eid s.escrows with
        | none =>
            try rw [hE]
            exact hinv
        | some e =>
            obtain ⟨eidF, pidF, dep, ben, arb, tok, amtF, feeF, st, ct, rt, dd,
              da, ba, rs, sc, oid, om, ca⟩ := e
            try rw [hE]
            dsimp only
            by_cases hD : st = EscrowStatus.DISPUTED
            · rw [if_pos hD]
              by_cases hrecip : recip = dep ∨ recip = ben
              · rw [if_pos hrecip]
                by_cases hamt : amt ≤ amtF
                · rw [if_pos hamt]
                  dsimp only
                  refine fundsOnce_terminal_payout s _ eid _ _ _ rfl
                    (List.append_assoc _ _ _) rfl hE ?_ ?_ rfl ?_ ?_ hinv
                  · rw [show st = EscrowStatus.DISPUTED from hD]
                    simp
                  · exact Or.inl rfl
                  · rw [outflowFor_append]
                    have hfst : outflowFor eid
                        (if 0 < amt then
                          [{ eid := some eid, token := tok, dest := recip,
                             amount := amt }] else []) = amt := by
                      split
                      · rw [outflowFor_single]
                        simp
                      · show (0 : Nat) = amt
                        omega
                    have hsnd : outflowFor eid
                        (if 0 < amtF - amt then
                          [{ eid := some eid, token := tok,
                             dest := if recip = ben then dep else ben,
                             amount := amtF - amt }] else []) = amtF - amt := by
                      split
                      · rw [outflowFor_single]
                        simp
                      · show (0 : Nat) = amtF - amt
                        omega
                    rw [hsnd, hfst]
                    show amt + (amtF - amt) = amtF
                    omega
                  · intro j hj
                    rw [outflowFor_append]
                    have hfst : outflowFor j
                        (if 0 < amt then
                          [{ eid := some eid, token := tok, dest := recip,
                             amount := amt }] else []) = 0 := by
                      split
                      · rw [outflowFor_single]
                        simp [Ne.symm hj]
                      · rfl
                    have hsnd : outflowFor j
                        (if 0 < amtF - amt then
                          [{ eid := some eid, token := tok,
                             dest := if recip = ben then dep else ben,
                             amount := amtF - amt }] else []) = 0 := by
                      split
                      · rw [outflowFor_single]
                        simp [Ne.symm hj]
                      · rfl
                    rw [hfst, hsnd]
                · rw [if_neg hamt]
                  exact hinv
              · rw [if_neg hrecip]
                exact hinv
            · rw [if_neg hD]
              exact hinv
      · rw [if_neg harb]
        exact hinv
  | refund caller eid =>
      unfold stepEscrow requestRefund
      dsimp only
      cases hE : mapLookup eid s.escrows with
      | none =>
          try rw [hE]
          exact hinv
      | some e =>
          obtain ⟨eidF, pidF, dep, ben, arb, tok, amtF, feeF, st, ct, rt, dd,
            da, ba, rs, sc, oid, om, ca⟩ := e
          try rw [hE]
          dsimp only
          split_ifs with hdep hA hag
          · exact hinv
          · refine fundsOnce_terminal_payout s _ eid _ _ _ rfl rfl rfl hE
              ?_ ?_ rfl ?_ ?_ hinv
            · rw [show st = EscrowStatus.ACTIVE from hA]
              simp
            · exact Or.inr rfl
            · rw [outflowFor_single]
              simp
            · intro j hj
              rw [outflowFor_single]
              simp [Ne.symm hj]
          · exact hinv
          · exact hinv
  | setOracleMet caller eid =>
      unfold stepEscrow setOracleConditionMet
      dsimp only
      by_cases hop : caller ∈ s.operators
      · rw [if_pos hop]
        cases hE : mapLookup eid s.escrows with
        | none =>
            try rw [hE]
            exact hinv
        | some e =>
            obtain ⟨eidF, pidF, dep, ben, arb, tok, amtF, feeF, st, ct, rt, dd,
              da, ba, rs, sc, oid, om, ca⟩ := e
            try rw [hE]
            dsimp only
            split_ifs with hC
            · exact fundsOnce_neutral_update s _ eid _ _ rfl rfl rfl hE
                Iff.rfl rfl hinv
            · exact hinv
      · rw [if_neg hop]
        exact hinv

end Escrow

namespace Escrow

/-- The invariant holds along any operation sequence. -/
theorem fundsOnce_run (s : EscrowState) (ops : List (Nat × EscrowOp))
    (hinv : fundsOnce s) : fundsOnce (runEscrow s ops) := by
  induction ops generalizing s with
  | nil => exact hinv
  | cons o rest ih =>
      obtain ⟨now, op⟩ := o
      exact ih _ (fundsOnce_step s now op hinv)

/-- C7.  Once an escrow is `RELEASED` or `REFUNDED`, every subsequent
`releaseEscrow`, `raiseDispute` and `requestRefund` on it fails (each
requires `ACTIVE` status) and returns the state unchanged; and along any
sequence of SmartEscrow operations the funds-move-once invariant is
preserved: each escrow's principal leaves the contract exactly once,
exactly when it turns terminal. -/
theorem escrow_terminal_and_funds_once
    (s : EscrowState) (k : Nat) (e : Esc)
    (hk : mapLookup k s.escrows = some e)
    (hterm : e.status = EscrowStatus.RELEASED ∨
        e.status = EscrowStatus.REFUNDED) :
    (∀ now, releaseEscrow s now k = (some "Not active", s)) ∧
    (∀ caller now, raiseDispute s caller now k = (some "Not active", s)) ∧
    (∀ caller now, (requestRefund s caller now k).1 ≠ none ∧
        (requestRefund s caller now k).2 = s) ∧
    (∀ ops, fundsOnce s → fundsOnce (runEscrow s ops)) := by
  have hns : ¬ e.status = EscrowStatus.ACTIVE := by
    rcases hterm with h | h <;> simp [h]
  refine ⟨?_, ?_, ?_, fun ops hinv => fundsOnce_run s ops hinv⟩
  · intro now
    simp [releaseEscrow, hk, hns]
  · intro caller now
    simp [raiseDispute, hk, hns]
  · intro caller now
    unfold requestRefund
    rw [hk]
    dsimp only
    by_cases hcaller : caller = e.depositor
    · rw [if_pos hcaller, if_neg hns]
      exact ⟨by simp, rfl⟩
    · rw [if_neg hcaller]
      exact ⟨by simp, rfl⟩

/-- Witness for C7 at the released fixture escrow: all three operations
fail and the state is unchanged. -/
theorem escrow_terminal_and_funds_once_witness :
    releaseEscrow doneState 5 0 = (some "Not active", doneState) ∧
    raiseDispute doneState 20 5 0 = (some "Not active", doneState) ∧
    (requestRefund doneState 20 5 0).1 ≠ none ∧
    (requestRefund doneState 20 5 0).2 = doneState := by
  have h := escrow_terminal_and_funds_once doneState 0 doneEscrow
    (by decide) (Or.inl (by decide))
  exact ⟨h.1 5, h.2.1 20 5, (h.2.2.1 20 5).1, (h.2.2.1 20 5).2⟩

end Escrow

namespace Compliance

/-! ## Theorems: ComplianceEngine -/

/-- Bumping the check counter does not change any profile. -/
theorem getProfile_bumpChecks (s : ComplianceState) (a : Nat) :
    getProfile { s with totalChecks := s.totalChecks + 1 } a = getProfile s a := rfl

/-- Reading back a just-written profile slot. -/
theorem getProfile_insert_self (pr : List (Nat × EntityProfile)) (t c r a : Nat)
    (p : EntityProfile) :
    getProfile ⟨mapInsert a p pr, t, c, r⟩ a = p := by
  unfold getProfile
  rw [mapLookup_insert_self]
  rfl

/-- After the period reset, the day stamp is the current day (given time
moves forward). -/
theorem resetLimits_lastDayReset (now : Nat) (p : EntityProfile)
    (hday : p.lastDayReset ≤ now / secondsPerDay) :
    (resetLimitsIfNeeded now p).lastDayReset = now / secondsPerDay := by
  unfold resetLimitsIfNeeded
  dsimp only
  split_ifs with h1 h2 h3 <;> (try simp) <;> omega

end Compliance

namespace Compliance

/-- C6.  Daily-limit monotonicity: with `R` the sender's daily remaining
capacity after the period reset, a passing check of amount `A` requires
`A ≤ R` and leaves the queried daily remaining at exactly `R - A`; a
check of `A > R` whose earlier gates (sanctions, tiers, expiry,
single-transaction limit) all pass is rejected with the
"Exceeds daily limit" reason and leaves the sender's post-reset daily
and monthly volume counters exactly as they were. -/
theorem compliance_daily_monotonic
    (s : ComplianceState) (now pid sender recipient amount : Nat)
    (rs : Bool) (rst rrt : ComplianceTier)
    (hday : (getProfile s sender).lastDayReset ≤ now / secondsPerDay) :
    ((checkPaymentCompliance s now pid sender recipient amount rs rst rrt).1.passed
        = true →
      amount ≤ (resetLimitsIfNeeded now (getProfile s sender)).dailyLimit -
        (resetLimitsIfNeeded now (getProfile s sender)).dailyVolume ∧
      (getEntityProfile
          (checkPaymentCompliance s now pid sender recipient amount rs rst rrt).2
          now sender).dailyRemaining =
        (resetLimitsIfNeeded now (getProfile s sender)).dailyLimit -
          (resetLimitsIfNeeded now (getProfile s sender)).dailyVolume - amount) ∧
    (¬ (rs = true ∧ (getProfile s sender).isSanctioned = true) →
      ¬ (rs = true ∧ (getProfile s recipient).isSanctioned = true) →
      ¬ ((getProfile s sender).tier.toNat < rst.toNat) →
      ¬ ((getProfile s recipient).tier.toNat < rrt.toNat) →
      ¬ ((getProfile s sender).isVerified = true ∧
          (getProfile s sender).expiresAt < now) →
      ¬ ((resetLimitsIfNeeded now (getProfile s sender)).singleTxLimit < amount) →
      (resetLimitsIfNeeded now (getProfile s sender)).dailyLimit -
        (resetLimitsIfNeeded now (getProfile s sender)).dailyVolume < amount →
      (checkPaymentCompliance s now pid sender recipient amount rs rst rrt).1
          = { passed := false, reason := "Exceeds daily limit",
              requiresTravelRule := false, requiresEnhancedDD := false,
              timestamp := now } ∧
      getProfile
          (checkPaymentCompliance s now pid sender recipient amount rs rst rrt).2
          sender
        = resetLimitsIfNeeded now (getProfile s sender)) := by
  constructor
  · intro hpass
    unfold checkPaymentCompliance at hpass
    dsimp only at hpass
    split_ifs at hpass with c1 c2 c3 c4 c5 c6 c7 c8
    · exact Bool.noConfusion hpass
    · exact Bool.noConfusion hpass
    · exact Bool.noConfusion hpass
    · exact Bool.noConfusion hpass
    · exact Bool.noConfusion hpass
    · exact Bool.noConfusion hpass
    · exact Bool.noConfusion hpass
    · exact Bool.noConfusion hpass
    · simp only [getProfile_bumpChecks] at c1 c2 c3 c4 c5 c6 c7 c8
      refine ⟨by omega, ?_⟩
      unfold checkPaymentCompliance
      dsimp only
      simp only [getProfile_bumpChecks]
      rw [if_neg c1, if_neg c2, if_neg c3, if_neg c4, if_neg c5, if_neg c6,
        if_neg c7, if_neg c8]
      unfold getEntityProfile
      dsimp only
      rw [getProfile_insert_self]
      try simp only [getProfile_bumpChecks]
      try dsimp only
      rw [resetLimits_lastDayReset now (getProfile s sender) hday, if_pos rfl]
      split_ifs with hlt
      · omega
      · omega
  · intro h1 h2 h3 h4 h5 h6 h7
    have hq : (resetLimitsIfNeeded now (getProfile s sender)).dailyLimit <
        (resetLimitsIfNeeded now (getProfile s sender)).dailyVolume + amount := by
      omega
    unfold checkPaymentCompliance
    dsimp only
    simp only [getProfile_bumpChecks]
    rw [if_neg h1, if_neg h2, if_neg h3, if_neg h4, if_neg h5, if_neg h6,
      if_pos hq]
    unfold reject
    dsimp only
    refine ⟨rfl, ?_⟩
    unfold getProfile
    dsimp only
    rw [mapLookup_insert_self]
    rfl

/-- Witness for C6 at the fixture sender: a passing 400 leaves 600 of the
1000 daily limit; with 500 already consumed, a 550 check fails with the
daily-limit reason. -/
theorem compliance_daily_monotonic_witness :
    (getEntityProfile
        (checkPaymentCompliance sComp 1000000 1 10 11 400 false
          ComplianceTier.NONE ComplianceTier.NONE).2 1000000 10).dailyRemaining
      = 600 ∧
    (checkPaymentCompliance sComp2 1000000 1 10 11 550 false
        ComplianceTier.NONE ComplianceTier.NONE).1
      = { passed := false, reason := "Exceeds daily limit",
          requiresTravelRule := false, requiresEnhancedDD := false,
          timestamp := 1000000 } := by
  constructor
  · have h := (compliance_daily_monotonic sComp 1000000 1 10 11 400 false
      ComplianceTier.NONE ComplianceTier.NONE (by decide)).1 (by decide)
    exact h.2.trans (by decide)
  · exact ((compliance_daily_monotonic sComp2 1000000 1 10 11 550 false
      ComplianceTier.NONE ComplianceTier.NONE (by decide)).2 (by decide)
      (by decide) (by decide) (by decide) (by decide) (by decide) (by decide)).1

end Compliance
